import Mathlib

/-!
Verification development for the `blender_spaceship_generator` procedural
spaceship generator (file `spaceship_generator.py`, plus the operator glue in
`__init__.py`).

Modelling conventions, used throughout:

* Real/float arithmetic of the original program is embedded exactly over `ℚ`.
* The host application's boundary-mesh kernel (the `bmesh` module) is not part
  of the repository; its operations are modelled from the specification's
  kernel interface (each such definition carries a doc comment saying so).
  Faces are never removed from the face table; consuming a face marks it dead
  (`alive = false`), matching the handle-invalidation discipline of the host
  (`face.is_valid`).  Passing a dead handle to a kernel operation is a fault,
  modelled as `Except.error Err.refError`.
* The host's unit face normal is the normalized Newell vector of the face
  ring.  All threshold comparisons the program makes against components of a
  unit normal (`> 0.9`, `< -0.95`, `< 0.707`, ...) are encoded exactly as
  sign conditions plus comparisons of squares against the squared norm, so no
  square roots are needed for any predicate.
* Where an actual length is needed (unit vectors for translation distances,
  face width/height), `ratSqrt` is used: it is exact on squares of rationals
  (in particular on all the axis-aligned geometry used as concrete inputs)
  and a floor approximation elsewhere.
* Exact trigonometry is unavailable over `ℚ`; rotations are embedded as exact
  rational rotation matrices obtained from the tangent half-angle
  parametrization of the circle, with the angle approximating the source's.
-/

namespace SpaceGen

/-- A 3-D vector with exact rational coordinates. -/
structure V3 where
  x : ℚ
  y : ℚ
  z : ℚ
deriving Repr, DecidableEq, Inhabited

namespace V3

def add (a b : V3) : V3 := ⟨a.x + b.x, a.y + b.y, a.z + b.z⟩

def sub (a b : V3) : V3 := ⟨a.x - b.x, a.y - b.y, a.z - b.z⟩

def neg (a : V3) : V3 := ⟨-a.x, -a.y, -a.z⟩

def smul (c : ℚ) (a : V3) : V3 := ⟨c * a.x, c * a.y, c * a.z⟩

def dot (a b : V3) : ℚ := a.x * b.x + a.y * b.y + a.z * b.z

def cross (a b : V3) : V3 :=
  ⟨a.y * b.z - a.z * b.y, a.z * b.x - a.x * b.z, a.x * b.y - a.y * b.x⟩

def normSq (a : V3) : ℚ := a.x * a.x + a.y * a.y + a.z * a.z

/-- `mathutils.Vector.lerp`: linear interpolation from `a` to `b`. -/
def lerp (a b : V3) (t : ℚ) : V3 := add (smul (1 - t) a) (smul t b)

def zero : V3 := ⟨0, 0, 0⟩

/-- Componentwise product, as used by `bmesh.ops.scale` with a `vec` argument. -/
def mulc (a b : V3) : V3 := ⟨a.x * b.x, a.y * b.y, a.z * b.z⟩

end V3

/-- Floor square root on `ℚ`, exact on squares of rationals:
`ratSqrt ((a/b)^2) = a/b` for `a/b ≥ 0`.  Used only where the source needs an
actual length (unit vectors, widths); every predicate of the program is
encoded without square roots. -/
def ratSqrt (q : ℚ) : ℚ :=
  if q ≤ 0 then 0 else (Nat.sqrt (q.num.toNat * q.den) : ℚ) / (q.den : ℚ)

/-- Normalize a vector, `mathutils`-style: the zero vector (and any vector of
unrepresentable length, under the `ratSqrt` approximation) maps to itself
scaled by a junk factor only when the length is inexact; exact on
axis-aligned input. A zero length yields the zero vector, as in `mathutils`. -/
def normalizeV (v : V3) : V3 :=
  let l := ratSqrt v.normSq
  if l = 0 then V3.zero else V3.smul (1 / l) v

/-- A 3×3 matrix with explicit rational entries (row `i`, column `j` in
`mij`). -/
structure M3 where
  m00 : ℚ
  m01 : ℚ
  m02 : ℚ
  m10 : ℚ
  m11 : ℚ
  m12 : ℚ
  m20 : ℚ
  m21 : ℚ
  m22 : ℚ
deriving Repr, DecidableEq, Inhabited

namespace M3

def mulV (m : M3) (v : V3) : V3 :=
  ⟨m.m00 * v.x + m.m01 * v.y + m.m02 * v.z,
   m.m10 * v.x + m.m11 * v.y + m.m12 * v.z,
   m.m20 * v.x + m.m21 * v.y + m.m22 * v.z⟩

def mul (a b : M3) : M3 :=
  ⟨a.m00 * b.m00 + a.m01 * b.m10 + a.m02 * b.m20,
   a.m00 * b.m01 + a.m01 * b.m11 + a.m02 * b.m21,
   a.m00 * b.m02 + a.m01 * b.m12 + a.m02 * b.m22,
   a.m10 * b.m00 + a.m11 * b.m10 + a.m12 * b.m20,
   a.m10 * b.m01 + a.m11 * b.m11 + a.m12 * b.m21,
   a.m10 * b.m02 + a.m11 * b.m12 + a.m12 * b.m22,
   a.m20 * b.m00 + a.m21 * b.m10 + a.m22 * b.m20,
   a.m20 * b.m01 + a.m21 * b.m11 + a.m22 * b.m21,
   a.m20 * b.m02 + a.m21 * b.m12 + a.m22 * b.m22⟩

def det (a : M3) : ℚ :=
    a.m00 * (a.m11 * a.m22 - a.m12 * a.m21)
  - a.m01 * (a.m10 * a.m22 - a.m12 * a.m20)
  + a.m02 * (a.m10 * a.m21 - a.m11 * a.m20)

/-- Adjugate (transpose of the cofactor matrix). -/
def adj (a : M3) : M3 :=
  ⟨a.m11 * a.m22 - a.m12 * a.m21,
   a.m02 * a.m21 - a.m01 * a.m22,
   a.m01 * a.m12 - a.m02 * a.m11,
   a.m12 * a.m20 - a.m10 * a.m22,
   a.m00 * a.m22 - a.m02 * a.m20,
   a.m02 * a.m10 - a.m00 * a.m12,
   a.m10 * a.m21 - a.m11 * a.m20,
   a.m01 * a.m20 - a.m00 * a.m21,
   a.m00 * a.m11 - a.m01 * a.m10⟩

def smul (c : ℚ) (a : M3) : M3 :=
  ⟨c * a.m00, c * a.m01, c * a.m02,
   c * a.m10, c * a.m11, c * a.m12,
   c * a.m20, c * a.m21, c * a.m22⟩

def one : M3 := ⟨1, 0, 0, 0, 1, 0, 0, 0, 1⟩

/-- Diagonal matrix, used for the scale part of `bmesh.ops.scale`. -/
def diag (sx sy sz : ℚ) : M3 := ⟨sx, 0, 0, 0, sy, 0, 0, 0, sz⟩

/-- Exact inverse of a rational matrix; `none` when singular.  This models
`mathutils.Matrix.invert()`, which raises `ValueError` on a singular
matrix. -/
def inv (a : M3) : Option M3 :=
  if a.det = 0 then none else some (smul (1 / a.det) a.adj)

end M3

/-- An affine transform: linear part plus translation.  The source always
builds 4×4 matrices whose last row is `0 0 0 1`, so this loses nothing. -/
structure Aff where
  lin : M3
  tr : V3
deriving Repr, DecidableEq, Inhabited

namespace Aff

def apply (a : Aff) (v : V3) : V3 := V3.add (a.lin.mulV v) a.tr

def comp (a b : Aff) : Aff := ⟨a.lin.mul b.lin, V3.add (a.lin.mulV b.tr) a.tr⟩

/-- Inverse affine transform; `none` when the linear part is singular. -/
def inv (a : Aff) : Option Aff :=
  match a.lin.inv with
  | none => none
  | some k => some ⟨k, (k.mulV a.tr).neg⟩

/-- A rotation-only transform. -/
def rot (m : M3) : Aff := ⟨m, V3.zero⟩

/-- A translation-only transform (`mathutils.Matrix.Translation`). -/
def translation (v : V3) : Aff := ⟨M3.one, v⟩

end Aff

/-- Exact rational rotation matrix about the X axis, given the cosine and
sine of the angle. -/
def rotXm (c s : ℚ) : M3 := ⟨1, 0, 0, 0, c, -s, 0, s, c⟩

/-- Exact rational rotation matrix about the Y axis. -/
def rotYm (c s : ℚ) : M3 := ⟨c, 0, s, 0, 1, 0, -s, 0, c⟩

/-- Exact rational rotation matrix about the Z axis. -/
def rotZm (c s : ℚ) : M3 := ⟨c, -s, 0, s, c, 0, 0, 0, 1⟩

/-- Cosine/sine pair from the tangent half-angle parametrization: for
`t = tan(angle/2)`, returns an exact point on the unit circle.  Used to embed
the source's rotations by angles whose trig values are irrational. -/
def circPoint (t : ℚ) : ℚ × ℚ :=
  ((1 - t * t) / (1 + t * t), 2 * t / (1 + t * t))

/-- Rotation about Y by (approximately) 5 degrees, the hull-growth wobble:
`t = tan(2.5°) ≈ 0.0437`.  An exact rotation by an angle within 0.001° of the
source's `5 * deg`. -/
def rotY5 (negate : Bool) : M3 :=
  let p := circPoint 0.0437
  rotYm p.1 (if negate then -p.2 else p.2)

/-- Rotation about X by 90 degrees (exact). -/
def rotX90 : M3 := rotXm 0 1

/-- Rotation about Y by 90 degrees (exact). -/
def rotY90 : M3 := rotYm 0 1

/-- Rotation about Z sweeping 0..90 degrees as the draw `u` sweeps 0..1:
`Matrix.Rotation(uniform(0, 90) * deg, 3, "Z")` embedded through the tangent
half-angle map `t = u * tan(45°) = u`. -/
def rotZdraw (u : ℚ) : M3 :=
  let p := circPoint u
  rotZm p.1 p.2

/-- Rotation about X sweeping 0..45 degrees as the draw `u` sweeps 0..1:
`Matrix.Rotation(uniform(0, 45) * deg, 3, "X")` through `t = u * tan(22.5°)`,
with `tan(22.5°) ≈ 0.4142`. -/
def rotXdraw (u : ℚ) : M3 :=
  let p := circPoint (u * 0.4142)
  rotXm p.1 p.2

/-! ## The mesh data model

Vertices are stored by index; faces hold vertex-index rings plus the
per-face `material_index` and an `alive` flag (the host's `face.is_valid`).
Faces are never physically removed: operations that consume a face mark it
dead, so stale handles are representable, exactly as in the host API. -/

/-- Faults of the host API: `refError` models `ReferenceError` (a dead
`BMFace` handle passed to an operation), `valueError` models `ValueError`
(`mathutils.Matrix.invert` on a singular matrix). -/
inductive Err where
  | refError
  | valueError
deriving Repr, DecidableEq

deriving instance DecidableEq for Except

/-- A face: vertex-index ring, material slot, liveness. -/
structure Face where
  vs : List ℕ
  mat : ℕ
  alive : Bool
deriving Repr, DecidableEq, Inhabited

/-- The working boundary mesh. -/
structure Mesh where
  verts : List V3
  faces : List Face
deriving Repr, DecidableEq, Inhabited

namespace Mesh

def getVert (m : Mesh) (i : ℕ) : V3 := m.verts.getD i V3.zero

/-- Look a face handle up; `none` when out of range or dead. -/
def getFace (m : Mesh) (r : ℕ) : Option Face :=
  match m.faces.get? r with
  | some f => if f.alive then some f else none
  | none => none

/-- The host's `face.is_valid` for a face handle. -/
def is_valid (m : Mesh) (r : ℕ) : Bool := (m.getFace r).isSome

def faceVertsOf (m : Mesh) (f : Face) : List V3 := f.vs.map m.getVert

/-- Vertex ring of a face handle (empty for a dead handle). -/
def faceVerts (m : Mesh) (r : ℕ) : List V3 :=
  match m.getFace r with
  | some f => m.faceVertsOf f
  | none => []

/-- Replace the `r`-th element of a list by its image under `g` (no-op when
out of range). -/
def listModify {α : Type} (g : α → α) : ℕ → List α → List α
  | _, [] => []
  | 0, x :: xs => g x :: xs
  | n + 1, x :: xs => x :: listModify g n xs

/-- Map the elements of a list whose position (counting from `k`) is listed
in `idxs`. -/
def mapFromIdx {α : Type} (idxs : List ℕ) (g : α → α) : ℕ → List α → List α
  | _, [] => []
  | k, x :: xs => (if k ∈ idxs then g x else x) :: mapFromIdx idxs g (k + 1) xs

/-- Update the face at index `r` (no-op when out of range). -/
def modifyFace (m : Mesh) (r : ℕ) (g : Face → Face) : Mesh :=
  { m with faces := listModify g r m.faces }

/-- `face.material_index = c` in the source. -/
def setMat (m : Mesh) (r : ℕ) (c : ℕ) : Mesh :=
  m.modifyFace r fun f => { f with mat := c }

/-- Mark the face dead (it has been consumed by a destructive operation). -/
def killFace (m : Mesh) (r : ℕ) : Mesh :=
  m.modifyFace r fun f => { f with alive := false }

/-- Apply a position map to the vertices listed in `idxs`, leaving all other
vertices in place (`bmesh.ops.translate` / `scale` / `rotate` with a `verts`
argument). -/
def mapVertsAt (m : Mesh) (idxs : List ℕ) (g : V3 → V3) : Mesh :=
  { m with verts := mapFromIdx idxs g 0 m.verts }

/-- Handles of all live faces, in face-table order: the snapshot
`bm.faces[:]` taken by the generator's passes. -/
def liveRefs (m : Mesh) : List ℕ :=
  (List.range m.faces.length).filter fun r => m.is_valid r

end Mesh

/-! ## Normals and the exact encodings of the normal/aspect predicates -/

/-- Consecutive cyclic pairs of a list: `[a, b, c] ↦ [(a,b), (b,c), (c,a)]`. -/
def cycPairs {α : Type} : List α → List (α × α)
  | [] => []
  | x :: xs => List.zip (x :: xs) (xs ++ [x])

/-- The (unnormalized) Newell normal of a vertex ring: the sum of cross
products of consecutive vertices.  For a planar ring this is the outward
normal scaled by twice the area, so it is positively proportional to the
host's unit `face.normal`; every comparison the program makes on the unit
normal is encoded against this vector with squared thresholds. -/
def newell (ps : List V3) : V3 :=
  (cycPairs ps).foldl (fun acc pq => acc.add (pq.1.cross pq.2)) V3.zero

/-- Raw (unnormalized) normal of a face handle; zero for a dead handle. -/
def rawNormal (m : Mesh) (r : ℕ) : V3 := newell (m.faceVerts r)

/-- The host's unit `face.normal`, via `ratSqrt` (exact on axis-aligned
faces). -/
def unitNormal (m : Mesh) (r : ℕ) : V3 := normalizeV (rawNormal m r)

/-- `n̂.c > t` for a positive threshold `t`, where `n̂ = n / ‖n‖`, encoded
exactly: `c > 0 ∧ c² > t²‖n‖²`.  (For `n = 0` the host normal is the zero
vector and the comparison is false, which this encoding also yields.) -/
def compGtPos (c nsq t : ℚ) : Bool := decide (0 < c ∧ t ^ 2 * nsq < c ^ 2)

/-- `n̂.c < -t` for a positive threshold `t`, encoded exactly. -/
def compLtNeg (c nsq t : ℚ) : Bool := decide (c < 0 ∧ t ^ 2 * nsq < c ^ 2)

/-- `|n̂.c| > t` encoded exactly. -/
def compAbsGt (c nsq t : ℚ) : Bool := decide (t ^ 2 * nsq < c ^ 2)

/-- `|n̂.c| < t` encoded exactly (true at the zero normal, as the float
comparison `abs(0.0) < t` is). -/
def compAbsLt (c nsq t : ℚ) : Bool := decide (c ^ 2 < t ^ 2 * nsq ∨ nsq = 0)

/-- `is_rear_face`: `face.normal.x < -0.95`. -/
def is_rear_face (m : Mesh) (r : ℕ) : Bool :=
  let n := rawNormal m r
  compLtNeg n.x n.normSq 0.95

/-- Squared lengths of `face.edges[0]` / `face.edges[1]` (the edges between
ring vertices 0-1 and 1-2), used by `get_aspect_ratio`. -/
def edge01Sq (m : Mesh) (r : ℕ) : ℚ :=
  let vs := m.faceVerts r
  ((vs.getD 0 V3.zero).sub (vs.getD 1 V3.zero)).normSq

def edge12Sq (m : Mesh) (r : ℕ) : ℚ :=
  let vs := m.faceVerts r
  ((vs.getD 1 V3.zero).sub (vs.getD 2 V3.zero)).normSq

/-- `get_aspect_ratio(face) > t` for a threshold `t ≥ 1`, encoded exactly.
`get_aspect_ratio` returns `max(0.01, e0/e1)` inverted into `[1, ∞)`;
for `t ≥ 1` (the program compares against 3 and 4) the comparison reduces to
`e0² > t²·e1² ∨ e1² > t²·e0²`.  An invalid face has aspect `1.0`, never
greater than `t`. -/
def aspect_gt (m : Mesh) (r : ℕ) (t : ℚ) : Bool :=
  if m.is_valid r then
    decide (t ^ 2 * edge12Sq m r < edge01Sq m r ∨ t ^ 2 * edge01Sq m r < edge12Sq m r)
  else false

/-- `int(4 - get_aspect_ratio(face))` from `add_exhaust_to_face`, computed
exactly by cases on where the aspect ratio falls in `[1, ∞)`:
aspect `= 1 ↦ 3`, `∈ (1, 2] ↦ 2`, `∈ (2, 3] ↦ 1`, `> 3 ↦ 0`. -/
def exhaustCutsMax (m : Mesh) (r : ℕ) : ℕ :=
  if m.is_valid r then
    let a := edge01Sq m r
    let b := edge12Sq m r
    if a = b then 3
    else if a ≤ 4 * b ∧ b ≤ 4 * a then 2
    else if a ≤ 9 * b ∧ b ≤ 9 * a then 1
    else 0
  else 3

/-- `BMFace.calc_center_bounds()`: the center of the face's axis-aligned
bounding box, as documented for the host API.  (Note: this is not the vertex
centroid.) -/
def calc_center_bounds (m : Mesh) (r : ℕ) : V3 :=
  match m.faceVerts r with
  | [] => V3.zero
  | v :: vs =>
    let lo := vs.foldl (fun a b => V3.mk (min a.x b.x) (min a.y b.y) (min a.z b.z)) v
    let hi := vs.foldl (fun a b => V3.mk (max a.x b.x) (max a.y b.y) (max a.z b.z)) v
    V3.smul (1 / 2) (lo.add hi)

/-- The face's vertex centroid (arithmetic mean of its vertices).  This
follows the specification's words (\"origin equal to the face's centroid\")
for comparison against the source's `calc_center_bounds`. -/
def centroid_spec (m : Mesh) (r : ℕ) : V3 :=
  match m.faceVerts r with
  | [] => V3.zero
  | v :: vs => V3.smul (1 / (1 + vs.length : ℚ)) (vs.foldl V3.add v)

/-! ## Kernel operations

The wrappers `scale_face`, `extrude_face`, `ribbed_extrude_face` and
`get_face_matrix` are translated from `spaceship_generator.py`; the
primitive operations they delegate to belong to the host kernel and are
modelled from the specification's kernel interface. -/

/-- Modelled from the spec: `bmesh.ops.translate(bm, vec, verts)`. -/
def bmTranslate (m : Mesh) (vec : V3) (idxs : List ℕ) : Mesh :=
  m.mapVertsAt idxs (V3.add vec)

/-- Modelled from the spec: `bmesh.ops.scale(bm, vec, verts)` without a
`space` argument: componentwise scaling about the origin. -/
def bmScaleVec (m : Mesh) (vec : V3) (idxs : List ℕ) : Mesh :=
  m.mapVertsAt idxs (V3.mulc vec)

/-- Modelled from the spec: `bmesh.ops.rotate(bm, verts, cent = (0,0,0),
matrix)`: rotate the listed vertices about the origin. -/
def bmRotate (m : Mesh) (rm : M3) (idxs : List ℕ) : Mesh :=
  m.mapVertsAt idxs rm.mulV

/-- Modelled from the spec: `bmesh.ops.scale` with a `space` matrix: each
vertex is carried into the given space, scaled componentwise, and carried
back (`v ↦ space⁻¹ · S · space · v`). -/
def bmScaleSpace (m : Mesh) (space : Aff) (sx sy sz : ℚ) (idxs : List ℕ) :
    Except Err Mesh :=
  match space.inv with
  | none => .error .valueError
  | some ispace =>
    .ok (m.mapVertsAt idxs fun v =>
      ispace.apply ((M3.diag sx sy sz).mulV (space.apply v)))

/-- Modelled from the spec: `bmesh.ops.extrude_discrete_faces` on one face.
The input face is consumed (killed); a translated-ring-to-be top face is
created over fresh copies of the ring vertices, and one side quad per edge
connects old ring to new.  Per the spec's kernel interface
(`extrude_face(mesh, face, distance) -> (new_face, side_faces[])`) and the
source's own comment, the result reports the new face and the side faces.
New faces inherit the consumed face's `material_index`, as host extrusion
copies face attributes. -/
def extrude_discrete (m : Mesh) (r : ℕ) : Except Err (Mesh × ℕ × List ℕ) :=
  match m.getFace r with
  | none => .error .refError
  | some f =>
    let base := m.verts.length
    let k := f.vs.length
    let topFace : Face := ⟨(List.range k).map (base + ·), f.mat, true⟩
    let sideFace : ℕ → Face := fun j =>
      ⟨[f.vs.getD j 0, f.vs.getD ((j + 1) % k) 0,
        base + (j + 1) % k, base + j], f.mat, true⟩
    let topRef := m.faces.length
    let m' : Mesh :=
      { verts := m.verts ++ m.faceVertsOf f,
        faces := (m.killFace r).faces ++ [topFace] ++ (List.range k).map sideFace }
    .ok (m', topRef, (List.range k).map fun j => topRef + 1 + j)

/-- `extrude_face(bm, face, translate_forwards, extruded_face_list)`: extrude
the face, then translate the new face's vertices along its normal.  Returns
the new face and the side-face list the source accumulates into
`extruded_face_list`.  There is no validity guard in the source: a dead
handle faults inside the kernel call. -/
def extrude_face (m : Mesh) (r : ℕ) (translate_forwards : ℚ) :
    Except Err (Mesh × ℕ × List ℕ) :=
  match extrude_discrete m r with
  | .error e => .error e
  | .ok (m1, new_face, sides) =>
    let nvs := match m1.getFace new_face with | some f => f.vs | none => []
    let m2 := bmTranslate m1 (V3.smul translate_forwards (unitNormal m1 new_face)) nvs
    .ok (m2, new_face, sides)

/-- `get_face_matrix(face, pos = None)`: face-local frame as a 4×4 affine
matrix whose columns are `x_axis` (normalized first-to-second vertex),
`y_axis = z_axis × x_axis`, `z_axis = -face.normal`, and whose translation
is `pos`, defaulting to `face.calc_center_bounds()`. -/
def get_face_matrix (m : Mesh) (r : ℕ) (pos : Option V3) : Except Err Aff :=
  match m.getFace r with
  | none => .error .refError
  | some f =>
    let vs := m.faceVertsOf f
    let x_axis := normalizeV ((vs.getD 1 V3.zero).sub (vs.getD 0 V3.zero))
    let z_axis := (unitNormal m r).neg
    let y_axis := z_axis.cross x_axis
    let p := match pos with
      | some q => q
      | none => calc_center_bounds m r
    .ok ⟨⟨x_axis.x, y_axis.x, z_axis.x,
          x_axis.y, y_axis.y, z_axis.y,
          x_axis.z, y_axis.z, z_axis.z⟩, p⟩

/-- `scale_face(bm, face, scale_x, scale_y, scale_z)`: invert the face frame
(`Matrix.invert`, `ValueError` on a singular frame) and scale the face's own
vertices in that space. -/
def scale_face (m : Mesh) (r : ℕ) (sx sy sz : ℚ) : Except Err Mesh :=
  match get_face_matrix m r none with
  | .error e => .error e
  | .ok fm =>
    match fm.inv with
    | none => .error .valueError
    | some face_space =>
      let idxs := match m.getFace r with | some f => f.vs | none => []
      bmScaleSpace m face_space sx sy sz idxs

/-- One rib unit of `ribbed_extrude_face`: quarter-step extrude, zero
extrude, scale down, half-step extrude, zero extrude, scale back up,
quarter-step extrude. -/
def ribUnit (per rib_scale : ℚ) (m : Mesh) (r : ℕ) : Except Err (Mesh × ℕ) := do
  let (m1, r1, _) ← extrude_face m r (per * 0.25)
  let (m2, r2, _) ← extrude_face m1 r1 0
  let m3 ← scale_face m2 r2 rib_scale rib_scale rib_scale
  let (m4, r4, _) ← extrude_face m3 r2 (per * 0.5)
  let (m5, r5, _) ← extrude_face m4 r4 0
  let m6 ← scale_face m5 r5 (1 / rib_scale) (1 / rib_scale) (1 / rib_scale)
  let (m7, r7, _) ← extrude_face m6 r5 (per * 0.25)
  return (m7, r7)

def ribLoop (per rib_scale : ℚ) : ℕ → Mesh → ℕ → Except Err (Mesh × ℕ)
  | 0, m, r => .ok (m, r)
  | n + 1, m, r => do
    let (m1, r1) ← ribUnit per rib_scale m r
    ribLoop per rib_scale n m1 r1

/-- `ribbed_extrude_face(bm, face, translate_forwards, num_ribs, rib_scale)`:
the corrugated extrusion, distributing the total distance over the ribs. -/
def ribbed_extrude_face (m : Mesh) (r : ℕ) (translate_forwards : ℚ)
    (num_ribs : ℕ) (rib_scale : ℚ) : Except Err (Mesh × ℕ) :=
  ribLoop (translate_forwards / (num_ribs : ℚ)) rib_scale num_ribs m r

/-- `get_face_width_and_height(face)`: `(-1, -1)` for an invalid or non-quad
face, else the lengths of the 0-1 and 2-1 vertex differences. -/
def get_face_width_and_height (m : Mesh) (r : ℕ) : ℚ × ℚ :=
  match m.getFace r with
  | none => (-1, -1)
  | some f =>
    if f.vs.length < 4 then (-1, -1)
    else
      let vs := m.faceVertsOf f
      (ratSqrt ((vs.getD 0 V3.zero).sub (vs.getD 1 V3.zero)).normSq,
       ratSqrt ((vs.getD 2 V3.zero).sub (vs.getD 1 V3.zero)).normSq)

/-- Per-vertex jitter source of the host's `subdivide_edges`: the op uses its
own PRNG with its fixed default seed (the generator passes no `seed`), so the
jitter is a fixed deterministic sequence; it is modelled as the zero
sequence. -/
def jitterVec (_k : ℕ) : V3 := V3.zero

/-- Modelled from the spec: `subdivide_grid` / `bmesh.ops.subdivide_edges`
with `use_grid_fill` on the edges of one quad face: the face is replaced by a
`(cuts+1)²` grid of quads built by bilinear interpolation of the ring
corners, with per-vertex `fractal` jitter; only the new faces are reported.
Cells inherit the face's `material_index`. A non-quad face is reported
unchanged with no cells. -/
def subdivide_grid (m : Mesh) (r : ℕ) (cuts : ℕ) (fractal : ℚ) :
    Except Err (Mesh × List ℕ) :=
  match m.getFace r with
  | none => .error .refError
  | some f =>
    if f.vs.length < 4 then .ok (m, []) else
    let vs := m.faceVertsOf f
    let a := vs.getD 0 V3.zero
    let b := vs.getD 1 V3.zero
    let c := vs.getD 2 V3.zero
    let d := vs.getD 3 V3.zero
    let nn := cuts + 1
    let base := m.verts.length
    let gridPt : ℕ → ℕ → V3 := fun i j =>
      let u : ℚ := (i : ℚ) / (nn : ℚ)
      let v : ℚ := (j : ℚ) / (nn : ℚ)
      ((a.lerp b u).lerp (d.lerp c u) v).add
        (V3.smul fractal (jitterVec (i * (nn + 1) + j)))
    let newVerts := (List.range (nn + 1)).flatMap fun i =>
      (List.range (nn + 1)).map fun j => gridPt i j
    let vIdx : ℕ → ℕ → ℕ := fun i j => base + i * (nn + 1) + j
    let cells := (List.range nn).flatMap fun i =>
      (List.range nn).map fun j =>
        (⟨[vIdx i j, vIdx (i + 1) j, vIdx (i + 1) (j + 1), vIdx i (j + 1)],
          f.mat, true⟩ : Face)
    let m' : Mesh :=
      { verts := m.verts ++ newVerts, faces := (m.killFace r).faces ++ cells }
    .ok (m', (List.range (nn * nn)).map (m.faces.length + ·))

/-- Rational point on the unit circle for ring vertex `k` of `n`: distinct
directions via the tangent half-angle parametrization (exact trigonometric
spacing is unavailable over `ℚ`; the ring layout is irrelevant to every
claim). -/
def coneDir (k n : ℕ) : ℚ × ℚ := circPoint ((2 * k + 1 : ℚ) / (n + 1 : ℚ))

/-- Modelled from the spec: `create_cone(segments, radius1, radius2, depth,
transform)`: two rings of `segments` vertices at `∓depth/2` with the two
radii, side quads, and (when `cap_ends`) two ngon caps.  New faces carry the
host's default `material_index` 0.  Returns the fragment's vertex and face
handles. -/
def create_cone (m : Mesh) (segments : ℕ) (r1 r2 depth : ℚ) (t : Aff)
    (cap_ends : Bool) : Mesh × List ℕ × List ℕ :=
  let base := m.verts.length
  let ring1 := (List.range segments).map fun k =>
    t.apply ⟨r1 * (coneDir k segments).1, r1 * (coneDir k segments).2, -depth / 2⟩
  let ring2 := (List.range segments).map fun k =>
    t.apply ⟨r2 * (coneDir k segments).1, r2 * (coneDir k segments).2, depth / 2⟩
  let sideFace : ℕ → Face := fun k =>
    ⟨[base + k, base + (k + 1) % segments,
      base + segments + (k + 1) % segments, base + segments + k], 0, true⟩
  let caps : List Face :=
    if cap_ends then
      [⟨((List.range segments).map (base + ·)).reverse, 0, true⟩,
       ⟨(List.range segments).map (base + segments + ·), 0, true⟩]
    else []
  let newFaces := (List.range segments).map sideFace ++ caps
  let fbase := m.faces.length
  ({ verts := m.verts ++ ring1 ++ ring2, faces := m.faces ++ newFaces },
   (List.range (2 * segments)).map (base + ·),
   (List.range newFaces.length).map (fbase + ·))

/-- Modelled from the spec: `create_icosphere(subdivisions, radius,
transform)`: a sphere-approximating fragment placed at the transform.  A
rational stand-in (an octahedron scaled by the radius) is used: the host's
icosahedron subdivision needs irrational coordinates, and no claim depends
on the fragment's vertex placement, only on its face bookkeeping. -/
def create_icosphere (m : Mesh) (radius : ℚ) (t : Aff) :
    Mesh × List ℕ × List ℕ :=
  let base := m.verts.length
  let pts : List V3 :=
    [⟨radius, 0, 0⟩, ⟨-radius, 0, 0⟩, ⟨0, radius, 0⟩,
     ⟨0, -radius, 0⟩, ⟨0, 0, radius⟩, ⟨0, 0, -radius⟩]
  let tris : List (ℕ × ℕ × ℕ) :=
    [(0, 2, 4), (2, 1, 4), (1, 3, 4), (3, 0, 4),
     (2, 0, 5), (1, 2, 5), (3, 1, 5), (0, 3, 5)]
  let fbase := m.faces.length
  ({ verts := m.verts ++ pts.map t.apply,
     faces := m.faces ++ tris.map fun ijk =>
       ⟨[base + ijk.1, base + ijk.2.1, base + ijk.2.2], 0, true⟩ },
   (List.range 6).map (base + ·),
   (List.range 8).map (fbase + ·))

/-- Modelled from the spec: `symmetrize(mesh, axis_plane)` /
`bmesh.ops.symmetrize`: mirrors all current geometry across the plane and
merges it with the original (the weld of coincident on-plane vertices is not
modelled; no claim concerns vertex identity).  Mirrored faces reverse their
ring to stay outward-oriented and keep their `material_index`. -/
def symmetrize (m : Mesh) (mirror : V3 → V3) : Mesh :=
  let n := m.verts.length
  { verts := m.verts ++ m.verts.map mirror,
    faces := m.faces ++ (m.faces.filter (·.alive)).map fun f =>
      ⟨(f.vs.map (· + n)).reverse, f.mat, true⟩ }

def mirrorY (v : V3) : V3 := ⟨v.x, -v.y, v.z⟩

def mirrorZ (v : V3) : V3 := ⟨v.x, v.y, -v.z⟩

/-! ## Random streams, parameters, materials, colours -/

/-- A pseudo-random stream, the model of one `random.Random` instance: `q i`
is the value of the `i`-th call to `random()` (hence of each `uniform`), and
`n i` feeds the `i`-th `randint`/`randrange`.  A generation call indexes one
such stream with a monotone counter, so a fixed stream fixes every draw. -/
structure RStream where
  q : ℕ → ℚ
  n : ℕ → ℕ

/-- The stream produced by `Random.seed(seedstr)`: an arbitrary but fixed
deterministic function of the seed string (the Mersenne Twister itself is not
reproduced; every property of interest only needs that equal seeds give equal
streams). -/
def seedStream (seedstr : String) : RStream :=
  let h := (seedstr.data.map Char.toNat).foldl (fun a c => a * 31 + c) 7
  { q := fun i => ((h + i) % 1009 : ℕ) / 1009, n := fun i => h + i }

/-- `GenerationParameters`: the fields of `parms_defaults` consumed by
`generate_spaceship` and `randomize_colours` (shader-only fields such as the
colour palette and `grunge_factor` ride along for `randomize_colours`). -/
structure Parms where
  geom_ranseed : String := ""
  mat_ranseed : String := ""
  num_hull_segments_min : ℕ := 3
  num_hull_segments_max : ℕ := 6
  create_asymmetry_segments : Bool := true
  num_asymmetry_segments_min : ℕ := 1
  num_asymmetry_segments_max : ℕ := 5
  create_face_detail : Bool := true
  allow_horizontal_symmetry : Bool := true
  allow_vertical_symmetry : Bool := false
  add_bevel_modifier : Bool := true
  hull_base_colour : ℚ × ℚ × ℚ := (0.5, 0.5, 0.5)
  hull_darken : ℚ := 0.3
  hull_emissive_colour : ℚ × ℚ × ℚ := (0.75, 0.75, 0.75)
  glow_colour : ℚ × ℚ × ℚ := (1, 1, 1)
  grunge_factor : ℚ := 0.5

/-- `class MATERIAL(enum.IntEnum)`: the densely-assigned material slots. -/
def MATERIAL.HULL : ℕ := 0

def MATERIAL.HULL_LIGHTS : ℕ := 1

def MATERIAL.HULL_DARK : ℕ := 2

def MATERIAL.HULL_METALLIC : ℕ := 3

def MATERIAL.EXHAUST_BURN : ℕ := 4

def MATERIAL.GLOW_DISC : ℕ := 5

/-- The number of material slots of this configuration variant. -/
def N_MATERIALS : ℕ := 6

/-- Fractional part, for the `hue % 1.0` of `colorsys`. -/
def fract (q : ℚ) : ℚ := q - ⌊q⌋

/-- The `_v` helper of `colorsys.hls_to_rgb`, translated exactly (the float
constants `ONE_SIXTH` etc. are the exact rationals). -/
def hlsV (m1 m2 hue : ℚ) : ℚ :=
  let h := fract hue
  if h < 1 / 6 then m1 + (m2 - m1) * h * 6
  else if h < 1 / 2 then m2
  else if h < 2 / 3 then m1 + (m2 - m1) * (2 / 3 - h) * 6
  else m1

/-- `colorsys.hls_to_rgb`, translated exactly over `ℚ`. -/
def hls_to_rgb (h l s : ℚ) : ℚ × ℚ × ℚ :=
  if s = 0 then (l, l, l)
  else
    let m2 := if l ≤ 1 / 2 then l * (1 + s) else l + s - l * s
    let m1 := 2 * l - m2
    (hlsV m1 m2 (h + 1 / 3), hlsV m1 m2 h, hlsV m1 m2 (h - 1 / 3))

/-- `uniform(lo, hi)` of one stream value: `lo + (hi - lo) * random()`. -/
def uniformOf (lo hi u : ℚ) : ℚ := lo + (hi - lo) * u

/-- `randomize_colours(parms, mat_random)`: derives the palette (hull base,
hull emissive, glow) from eight successive draws of the material stream.  It
reads nothing from `parms` (in the source it only assigns into it); in
particular `mat_ranseed` is never consulted. -/
def randomize_colours (mat : RStream) : Parms → Parms := fun parms =>
  { parms with
    hull_base_colour :=
      hls_to_rgb (mat.q 0) (uniformOf 0.05 0.5 (mat.q 1)) (uniformOf 0 0.25 (mat.q 2)),
    hull_emissive_colour :=
      hls_to_rgb (mat.q 3) (uniformOf 0.5 1 (mat.q 4)) (uniformOf 0 0.5 (mat.q 5)),
    glow_colour :=
      hls_to_rgb (mat.q 6) (uniformOf 0.5 1 (mat.q 7)) 1 }

/-- The derived colour palette of a parameter record. -/
def palette (p : Parms) : (ℚ × ℚ × ℚ) × (ℚ × ℚ × ℚ) × (ℚ × ℚ × ℚ) :=
  (p.hull_base_colour, p.hull_emissive_colour, p.glow_colour)

/-- The palette produced by one run of `GenerateSpaceship.invoke`
(`__init__.py`): `randomize_colours(self, random.Random())` — the material
stream is a freshly OS-seeded `Random`, modelled as ambient entropy; the
parameter record (including `mat_ranseed`) does not influence which stream is
drawn from. -/
def invoke_palette (p : Parms) (osEntropy : RStream) :
    (ℚ × ℚ × ℚ) × (ℚ × ℚ × ℚ) × (ℚ × ℚ × ℚ) :=
  palette (randomize_colours osEntropy p)

/-! ## Generation state and draw helpers -/

/-- The state threaded through one generation call: the working mesh and the
position in the geometry stream. -/
structure S where
  bm : Mesh
  rk : ℕ
deriving Repr, DecidableEq, Inhabited

/-- `geom_random.random()`. -/
def S.rand (rs : RStream) (s : S) : ℚ × S :=
  (rs.q s.rk, { s with rk := s.rk + 1 })

/-- `geom_random.uniform(lo, hi)`. -/
def S.runi (rs : RStream) (s : S) (lo hi : ℚ) : ℚ × S :=
  (uniformOf lo hi (rs.q s.rk), { s with rk := s.rk + 1 })

/-- `geom_random.randint(a, b)` for `a ≤ b` (the program only calls it with
constant bounds satisfying this, or bounds it has guarded; Python raises on
`b < a`, a case no in-model call reaches). -/
def S.rint (rs : RStream) (s : S) (a b : ℕ) : ℕ × S :=
  (a + rs.n s.rk % (b + 1 - a), { s with rk := s.rk + 1 })

/-- `geom_random.randrange(a, b)` for `a < b`. -/
def S.rrange (rs : RStream) (s : S) (a b : ℕ) : ℕ × S :=
  (a + rs.n s.rk % (b - a), { s with rk := s.rk + 1 })

/-- `abs(face.normal.z) < 0.707`, the near-vertical (side-face) test of
`add_grid_to_face`, encoded exactly. -/
def nearVerticalZ (m : Mesh) (r : ℕ) : Bool :=
  let n := rawNormal m r
  compAbsLt n.z n.normSq 0.707

/-- `math.sqrt(face.calc_area())` under the `ratSqrt` approximation: the area
of a planar face is half the Newell-vector length. -/
def faceSizeOf (m : Mesh) (r : ℕ) : ℚ :=
  ratSqrt (ratSqrt (rawNormal m r).normSq / 2)

/-- The `(h, v)` sample positions of the grid-pattern detail generators: for
each `h`, `top = verts[0].lerp(verts[1], (h+1)/(hs+1))`,
`bottom = verts[3].lerp(verts[2], (h+1)/(hs+1))`, and for each `v` the point
`top.lerp(bottom, (v+1)/(vs+1))`; `h` outer, `v` inner. -/
def gridPositions (m : Mesh) (r : ℕ) (hs vsteps : ℕ) : List V3 :=
  let vs := m.faceVerts r
  (List.range hs).flatMap fun h =>
    let top := (vs.getD 0 V3.zero).lerp (vs.getD 1 V3.zero)
      ((h + 1 : ℚ) / (hs + 1 : ℚ))
    let bottom := (vs.getD 3 V3.zero).lerp (vs.getD 2 V3.zero)
      ((h + 1 : ℚ) / (hs + 1 : ℚ))
    (List.range vsteps).map fun v =>
      top.lerp bottom ((v + 1 : ℚ) / (vsteps + 1 : ℚ))

/-! ## The seven detail generators

Each is an inner function of `generate_spaceship` closing over
`geom_random`; here each takes the geometry stream explicitly.  Every
generator opens with its validity guard exactly as in the source. -/

/-- The body of the sub-face loop of `add_exhaust_to_face`: darken, extrude
out, scale down, extrude back in (tagging the extrusion's side faces as
burn), scale in — applied only to rear-pointing sub-faces. -/
def exhaustCellStep (exhaust_length scale_outer scale_inner : ℚ) (m : Mesh)
    (cr : ℕ) : Except Err Mesh :=
  if is_rear_face m cr then do
    let m0 := m.setMat cr MATERIAL.HULL_DARK
    let (m1, f1, _) ← extrude_face m0 cr exhaust_length
    let m2 ← scale_face m1 f1 scale_outer scale_outer scale_outer
    let (m3, f2, sides) ← extrude_face m2 f1 (-exhaust_length * 0.9)
    let m4 := sides.foldl (fun mm sr => mm.setMat sr MATERIAL.EXHAUST_BURN) m3
    scale_face m4 f2 scale_inner scale_inner scale_inner
  else .ok m

def exhaustCells (el so si : ℚ) : List ℕ → Mesh → Except Err Mesh
  | [], m => .ok m
  | c :: cs, m => do
    let m' ← exhaustCellStep el so si m c
    exhaustCells el so si cs m'

/-- `add_exhaust_to_face(bm, face)`. -/
def add_exhaust_to_face (rs : RStream) (s : S) (r : ℕ) : Except Err S :=
  if s.bm.is_valid r = false then .ok s else do
    let (num_cuts, s1) := S.rint rs s 1 (exhaustCutsMax s.bm r)
    let (m1, cells) ← subdivide_grid s1.bm r num_cuts 0.02
    let (exhaust_length, s2) := S.runi rs { s1 with bm := m1 } 0.1 0.2
    let (so_den, s3) := S.runi rs s2 1.3 1.6
    let (si_den, s4) := S.runi rs s3 1.05 1.1
    let mfin ← exhaustCells exhaust_length (1 / so_den) (1 / si_den) cells s4.bm
    return { s4 with bm := mfin }

/-- Log of one grid cell of `add_grid_to_face`, for specification purposes
(the Python function returns nothing): the cell's extruded top face, its
side faces, and the 50/50 material chosen for the cell. -/
structure GridCellLog where
  top : ℕ
  sides : List ℕ
  chosen : ℕ
deriving Repr, DecidableEq, Inhabited

/-- The side-face tagging loop of `add_grid_to_face`: for each reported
extrusion face, tag it with the cell's material when
`abs(face.normal.z) < 0.707` — `face` being the cell's extruded top face
`top`, exactly as the source has it. -/
def tagSides (top material_index : ℕ) (sides : List ℕ) (m : Mesh) : Mesh :=
  sides.foldl
    (fun mm sr => if nearVerticalZ mm top then mm.setMat sr material_index else mm) m

/-- The body of the cell loop of `add_grid_to_face`: choose the material
50/50, extrude the cell, tag the reported faces via `tagSides`, then scale
the cell's top face back down by 0.8. -/
def gridCellStep (rs : RStream) (grid_length : ℚ) (s : S) (cr : ℕ) :
    Except Err (S × GridCellLog) :=
  let u := rs.q s.rk
  let s1 : S := { s with rk := s.rk + 1 }
  let material_index := if u > 0.5 then MATERIAL.HULL_LIGHTS else MATERIAL.HULL
  do
    let (m1, top, sides) ← extrude_face s1.bm cr grid_length
    let m2 := tagSides top material_index sides m1
    let m3 ← scale_face m2 top 0.8 0.8 0.8
    return ({ s1 with bm := m3 }, ⟨top, sides, material_index⟩)

def gridCells (rs : RStream) (gl : ℚ) :
    List ℕ → S → List GridCellLog → Except Err (S × List GridCellLog)
  | [], s, acc => .ok (s, acc.reverse)
  | c :: cs, s, acc => do
    let (s', lg) ← gridCellStep rs gl s c
    gridCells rs gl cs s' (lg :: acc)

/-- `add_grid_to_face(bm, face)`.  Returns the per-cell log alongside the
state. -/
def add_grid_to_face (rs : RStream) (s : S) (r : ℕ) :
    Except Err (S × List GridCellLog) :=
  if s.bm.is_valid r = false then .ok (s, []) else do
    let (cuts, s1) := S.rint rs s 2 4
    let (m1, cells) ← subdivide_grid s1.bm r cuts 0.02
    let (grid_length, s2) := S.runi rs { s1 with bm := m1 } 0.025 0.15
    gridCells rs grid_length cells s2 []

/-- One cylinder of `add_cylinders_to_face`: a cone with equal radii at the
face-frame position, rotated 90° about the frame's X axis. -/
def cylCell (num_segments : ℕ) (size depth : ℚ) (m : Mesh) (r : ℕ)
    (pos : V3) : Except Err Mesh := do
  let fm ← get_face_matrix m r (some pos)
  return (create_cone m num_segments size size depth
    (fm.comp (Aff.rot rotX90)) true).1

def cylCells (num_segments : ℕ) (size depth : ℚ) (r : ℕ) :
    List V3 → Mesh → Except Err Mesh
  | [], m => .ok m
  | p :: ps, m => do
    let m' ← cylCell num_segments size depth m r p
    cylCells num_segments size depth r ps m'

/-- `add_cylinders_to_face(bm, face)`. -/
def add_cylinders_to_face (rs : RStream) (s : S) (r : ℕ) : Except Err S :=
  if s.bm.is_valid r = false ∨ (s.bm.faceVerts r).length < 4 then .ok s else do
    let (horizontal_step, s1) := S.rint rs s 1 3
    let (vertical_step, s2) := S.rint rs s1 1 3
    let (num_segments, s3) := S.rint rs s2 6 12
    let wh := get_face_width_and_height s3.bm r
    let cylinder_depth :=
      1.3 * min (wh.1 / (horizontal_step + 2 : ℚ)) (wh.2 / (vertical_step + 2 : ℚ))
    let cylinder_size := cylinder_depth * 0.5
    let mfin ← cylCells num_segments cylinder_size cylinder_depth r
      (gridPositions s3.bm r horizontal_step vertical_step) s3.bm
    return { s3 with bm := mfin }

/-- One turret of `add_weapons_to_face`: foundation cone, two guard cones,
housing cone at a random upward tilt, two barrel cones.  Consumes two draws:
the yaw `uniform(0, 90)` and the upward angle `uniform(0, 45)` (each embedded
as the rotation `rotZdraw`/`rotXdraw` of its unit draw). -/
def weaponCell (rs : RStream) (r : ℕ) (weapon_size weapon_depth : ℚ)
    (s : S) (pos : V3) : Except Err S := do
  let (yaw_u, s1) := S.rand rs s
  let fm ← get_face_matrix s1.bm r
    (some (pos.add (V3.smul (weapon_depth * 0.5) (unitNormal s1.bm r))))
  let face_matrix := fm.comp (Aff.rot (rotZdraw yaw_u))
  let m1 := (create_cone s1.bm 16 (weapon_size * 0.9) weapon_size weapon_depth
    face_matrix true).1
  let m2 := (create_cone m1 16 (weapon_size * 0.6) (weapon_size * 0.5)
    (weapon_depth * 2)
    ((face_matrix.comp (Aff.rot rotY90)).comp
      (Aff.translation ⟨0, 0, weapon_size * 0.6⟩)) true).1
  let m3 := (create_cone m2 16 (weapon_size * 0.5) (weapon_size * 0.6)
    (weapon_depth * 2)
    ((face_matrix.comp (Aff.rot rotY90)).comp
      (Aff.translation ⟨0, 0, weapon_size * (-0.6)⟩)) true).1
  let (up_u, s2) := S.rand rs { s1 with bm := m3 }
  let turret_house_mat :=
    (face_matrix.comp (Aff.rot (rotXdraw up_u))).comp
      (Aff.translation ⟨0, weapon_size * (-0.4), 0⟩)
  let m4 := (create_cone s2.bm 8 (weapon_size * 0.4) (weapon_size * 0.4)
    (weapon_depth * 5) turret_house_mat true).1
  let m5 := (create_cone m4 8 (weapon_size * 0.1) (weapon_size * 0.1)
    (weapon_depth * 6)
    (turret_house_mat.comp
      (Aff.translation ⟨weapon_size * 0.2, 0, -weapon_size⟩)) true).1
  let m6 := (create_cone m5 8 (weapon_size * 0.1) (weapon_size * 0.1)
    (weapon_depth * 6)
    (turret_house_mat.comp
      (Aff.translation ⟨weapon_size * (-0.2), 0, -weapon_size⟩)) true).1
  return { s2 with bm := m6 }

def weaponCells (rs : RStream) (r : ℕ) (ws wd : ℚ) :
    List V3 → S → Except Err S
  | [], s => .ok s
  | p :: ps, s => do
    let s' ← weaponCell rs r ws wd s p
    weaponCells rs r ws wd ps s'

/-- `add_weapons_to_face(bm, face)`. -/
def add_weapons_to_face (rs : RStream) (s : S) (r : ℕ) : Except Err S :=
  if s.bm.is_valid r = false ∨ (s.bm.faceVerts r).length < 4 then .ok s else do
    let (horizontal_step, s1) := S.rint rs s 1 2
    let (vertical_step, s2) := S.rint rs s1 1 2
    let wh := get_face_width_and_height s2.bm r
    let weapon_size :=
      0.5 * min (wh.1 / (horizontal_step + 2 : ℚ)) (wh.2 / (vertical_step + 2 : ℚ))
    let weapon_depth := weapon_size * 0.2
    weaponCells rs r weapon_size weapon_depth
      (gridPositions s2.bm r horizontal_step vertical_step) s2

/-- `add_sphere_to_face(bm, face)`: one icosphere, partially recessed, all of
its faces tagged with the base hull material. -/
def add_sphere_to_face (rs : RStream) (s : S) (r : ℕ) : Except Err S :=
  if s.bm.is_valid r = false then .ok s else do
    let wh := get_face_width_and_height s.bm r
    let (size_u, s1) := S.runi rs s 0.4 1.0
    let sphere_size := size_u * min wh.1 wh.2
    let (recess, s2) := S.runi rs s1 0 (sphere_size * 0.5)
    let fm ← get_face_matrix s2.bm r
      (some ((calc_center_bounds s2.bm r).sub
        (V3.smul recess (unitNormal s2.bm r))))
    let res := create_icosphere s2.bm sphere_size fm
    let m' := res.2.2.foldl (fun mm fr => mm.setMat fr MATERIAL.HULL) res.1
    return { s2 with bm := m' }

/-- The per-sample body of `add_surface_antenna_to_face`: with probability
0.1 place a spire cone plus a base cone, both tagged metallic. -/
def antennaPoint (rs : RStream) (r : ℕ) (s : S) (pos : V3) : Except Err S :=
  let (u, s1) := S.rand rs s
  if u > 0.9 then do
    let face_size := faceSizeOf s1.bm r
    let (depth_u, s2) := S.runi rs s1 0.1 1.5
    let depth := depth_u * face_size
    let (short_u, s3) := S.runi rs s2 0.02 0.15
    let depth_short := depth * short_u
    let (base_radius, s4) := S.runi rs s3 0.005 0.05
    let (num_segments, s5) := S.rint rs s4 3 6
    let fm1 ← get_face_matrix s5.bm r
      (some (pos.add (V3.smul (depth * 0.5) (unitNormal s5.bm r))))
    let res1 := create_cone s5.bm num_segments 0 base_radius depth fm1 false
    let m1 := res1.2.2.foldl
      (fun mm fr => mm.setMat fr MATERIAL.HULL_METALLIC) res1.1
    let (r1_u, s6) := S.runi rs { s5 with bm := m1 } 1 1.5
    let (r2_u, s7) := S.runi rs s6 1.5 2
    let fm2 ← get_face_matrix s7.bm r
      (some (pos.add (V3.smul (depth_short * 0.45) (unitNormal s7.bm r))))
    let res2 := create_cone s7.bm num_segments (base_radius * r1_u)
      (base_radius * r2_u) depth_short fm2 true
    let m2 := res2.2.2.foldl
      (fun mm fr => mm.setMat fr MATERIAL.HULL_METALLIC) res2.1
    return { s7 with bm := m2 }
  else .ok s1

def antennaPoints (rs : RStream) (r : ℕ) : List V3 → S → Except Err S
  | [], s => .ok s
  | p :: ps, s => do
    let s' ← antennaPoint rs r s p
    antennaPoints rs r ps s'

/-- `add_surface_antenna_to_face(bm, face)`. -/
def add_surface_antenna_to_face (rs : RStream) (s : S) (r : ℕ) :
    Except Err S :=
  if s.bm.is_valid r = false ∨ (s.bm.faceVerts r).length < 4 then .ok s else do
    let (horizontal_step, s1) := S.rint rs s 4 10
    let (vertical_step, s2) := S.rint rs s1 4 10
    antennaPoints rs r (gridPositions s2.bm r horizontal_step vertical_step) s2

/-- `add_disc_to_face(bm, face)`: a solid tapered base cone plus an open rim
cone slightly above it, the rim's faces tagged as the glow material.  The
only generator with no random draws. -/
def add_disc_to_face (s : S) (r : ℕ) : Except Err S :=
  if s.bm.is_valid r = false then .ok s else do
    let wh := get_face_width_and_height s.bm r
    let depth := 0.125 * min wh.1 wh.2
    let fm1 ← get_face_matrix s.bm r
      (some ((calc_center_bounds s.bm r).add
        (V3.smul (depth * 0.5) (unitNormal s.bm r))))
    let m1 := (create_cone s.bm 32 (depth * 3) (depth * 4) depth fm1 true).1
    let fm2 ← get_face_matrix m1 r
      (some ((calc_center_bounds m1 r).add
        (V3.smul (depth * 1.05) (unitNormal m1 r))))
    let res := create_cone m1 32 (depth * 1.25) (depth * 2.25) 0 fm2 false
    let m2 := res.2.2.foldl (fun mm fr => mm.setMat fr MATERIAL.GLOW_DISC) res.1
    return { s with bm := m2 }

/-! ## Hull growth -/

/-- Vertex-index ring of a face handle (empty for a dead handle), for
`verts = face.verts` arguments. -/
def faceVsIdx (m : Mesh) (r : ℕ) : List ℕ :=
  match m.getFace r with
  | some f => f.vs
  | none => []

/-- `abs(face.normal.x) > 0.5`: the test selecting the two end caps as
extrusion arms. -/
def absNormXgtHalf (m : Mesh) (r : ℕ) : Bool :=
  let n := rawNormal m r
  compAbsGt n.x n.normSq 0.5

/-- The `num_hull_segments` determination: draw from
`randrange(min, max + 1)` when `max ≥ min`, else use `min` directly without
consuming a draw (the source's inverted-bounds fallback). -/
def numHullSegmentsDraw (rs : RStream) (parms : Parms) (s : S) : ℕ × S :=
  if parms.num_hull_segments_max ≥ parms.num_hull_segments_min then
    S.rrange rs s parms.num_hull_segments_min (parms.num_hull_segments_max + 1)
  else (parms.num_hull_segments_min, s)

/-- The optional short further extrusion of a hull segment (probability
0.25): one draw, then extrude by a quarter segment length when it exceeds
0.75. -/
def hullMaybeExtra (rs : RStream) (hull_segment_length : ℚ) (s : S)
    (face : ℕ) : Except Err (S × ℕ) :=
  let u := rs.q s.rk
  let s1 : S := { s with rk := s.rk + 1 }
  if u > 0.75 then do
    let (m2, f2, _) ← extrude_face s1.bm face (hull_segment_length * 0.25)
    return ({ s1 with bm := m2 }, f2)
  else return (s1, face)

/-- The optional Y/Z scaling of a hull segment (probability 0.5): draw the
two factors, invert them when this is the last segment (no draw consumed,
Python short-circuit) or on a further coin, and scale the face. -/
def hullMaybeScale (rs : RStream) (is_last : Bool) (s : S) (face : ℕ) :
    Except Err S :=
  let u := rs.q s.rk
  let s1 : S := { s with rk := s.rk + 1 }
  if u > 0.5 then
    let sy := uniformOf 1.2 1.5 (rs.q s1.rk)
    let s2 : S := { s1 with rk := s1.rk + 1 }
    let sz := uniformOf 1.2 1.5 (rs.q s2.rk)
    let s3 : S := { s2 with rk := s2.rk + 1 }
    let ic : Bool × S :=
      if is_last then (true, s3)
      else (rs.q s3.rk > 0.5, { s3 with rk := s3.rk + 1 })
    let sy' := if ic.1 then 1 / sy else sy
    let sz' := if ic.1 then 1 / sz else sz
    do
      let m ← scale_face ic.2.bm face 1 sy' sz'
      return { ic.2 with bm := m }
  else return s1

/-- The optional sideways translation of a hull segment (probability 0.5):
a Z offset scaled by the seed scale vector and the segment length, negated
on a further coin. -/
def hullMaybeSideways (rs : RStream) (scale_vector : V3)
    (hull_segment_length : ℚ) (s : S) (face : ℕ) : S :=
  let u := rs.q s.rk
  let s1 : S := { s with rk := s.rk + 1 }
  if u > 0.5 then
    let amt := uniformOf 0.1 0.4 (rs.q s1.rk)
    let s2 : S := { s1 with rk := s1.rk + 1 }
    let sideways := V3.mk 0 0 (amt * scale_vector.z * hull_segment_length)
    let u5 := rs.q s2.rk
    let s3 : S := { s2 with rk := s2.rk + 1 }
    let sideways' := if u5 > 0.5 then sideways.neg else sideways
    { s3 with bm := bmTranslate s3.bm sideways' (faceVsIdx s3.bm face) }
  else s1

/-- The optional rotation of a hull segment about the global Y axis
(probability 0.5) by ±5 degrees, the sign drawn separately. -/
def hullMaybeRotate (rs : RStream) (s : S) (face : ℕ) : S :=
  let u := rs.q s.rk
  let s1 : S := { s with rk := s.rk + 1 }
  if u > 0.5 then
    let u7 := rs.q s1.rk
    let s2 : S := { s1 with rk := s1.rk + 1 }
    { s2 with bm := bmRotate s2.bm (rotY5 (u7 > 0.5)) (faceVsIdx s2.bm face) }
  else s1

/-- One iteration of the hull-segment loop: with probability 0.9 a plain
extrusion with the optional extra extrusion, scaling, sideways translation
and Y-rotation; with probability 0.1 a ribbed extrusion (the rib scale drawn
before the rib count, as the call evaluates them).  Returns the resolved
current face. -/
def hullSegmentStep (rs : RStream) (scale_vector : V3)
    (hull_segment_length : ℚ) (is_last : Bool) (s : S) (face : ℕ) :
    Except Err (S × ℕ) :=
  let val := rs.q s.rk
  let s0 : S := { s with rk := s.rk + 1 }
  if val > 0.1 then do
    let (m1, f1, _) ← extrude_face s0.bm face hull_segment_length
    let sf2 ← hullMaybeExtra rs hull_segment_length { s0 with bm := m1 } f1
    let s4 ← hullMaybeScale rs is_last sf2.1 sf2.2
    let s6 := hullMaybeSideways rs scale_vector hull_segment_length s4 sf2.2
    let s8 := hullMaybeRotate rs s6 sf2.2
    return (s8, sf2.2)
  else do
    let rib_scale := uniformOf 0.75 0.95 (rs.q s0.rk)
    let s1 : S := { s0 with rk := s0.rk + 1 }
    let (num_ribs, s2) := S.rint rs s1 2 4
    let (m, f1) ← ribbed_extrude_face s2.bm face hull_segment_length num_ribs rib_scale
    return ({ s2 with bm := m }, f1)

/-- The hull-segment loop on one arm, counting down the remaining segments
(`is_last` when one remains) and re-resolving the current face from each
step. -/
def hullSegLoop (rs : RStream) (scale_vector : V3) (len : ℚ) :
    ℕ → S → ℕ → Except Err (S × ℕ)
  | 0, s, face => .ok (s, face)
  | k + 1, s, face => do
    let (s', f') ← hullSegmentStep rs scale_vector len (k = 0) s face
    hullSegLoop rs scale_vector len k s' f'

/-- One extrusion arm of the growth pass: draw the segment length, determine
the segment count, run the loop.  Returns the number of growth segments
performed on this arm alongside the state. -/
def growArm (rs : RStream) (parms : Parms) (scale_vector : V3) (s : S)
    (r : ℕ) : Except Err (S × ℕ) := do
  let (hull_segment_length, s1) := S.runi rs s 0.3 1
  let nh := numHullSegmentsDraw rs parms s1
  let (s3, _) ← hullSegLoop rs scale_vector hull_segment_length nh.1 nh.2 r
  return (s3, nh.1)

/-- The growth pass over the snapshot of faces: each face whose normal has
`abs(x) > 0.5` becomes an arm. -/
def growArms (rs : RStream) (parms : Parms) (scale_vector : V3) :
    List ℕ → S → Except Err S
  | [], s => .ok s
  | r :: rest, s =>
    if absNormXgtHalf s.bm r then do
      let (s', _) ← growArm rs parms scale_vector s r
      growArms rs parms scale_vector rest s'
    else growArms rs parms scale_vector rest s

/-! ## Asymmetry pass -/

/-- The protrusion chain of the asymmetry pass: `count` short extrusions,
each scaled down by `1/uniform(1.1, 1.5)` with probability 0.75. -/
def asymChain (rs : RStream) (hull_piece_length : ℚ) :
    ℕ → S → ℕ → Except Err S
  | 0, s, _ => .ok s
  | k + 1, s, face => do
    let (m1, f1, _) ← extrude_face s.bm face hull_piece_length
    let u := rs.q s.rk
    let s1 : S := ⟨m1, s.rk + 1⟩
    if u > 0.25 then do
      let sd := uniformOf 1.1 1.5 (rs.q s1.rk)
      let s2 : S := { s1 with rk := s1.rk + 1 }
      let m2 ← scale_face s2.bm f1 (1 / sd) (1 / sd) (1 / sd)
      asymChain rs hull_piece_length k { s2 with bm := m2 } f1
    else asymChain rs hull_piece_length k s1 f1

/-- The per-face decision of the asymmetry pass: skip long thin faces
(aspect `> 4`) without consuming a draw (Python short-circuit), then start a
chain with probability 0.15.  Returns the number of protrusion segments
performed on this face. -/
def asymFaceStep (rs : RStream) (parms : Parms) (s : S) (r : ℕ) :
    Except Err (S × ℕ) :=
  if aspect_gt s.bm r 4 then .ok (s, 0)
  else
    let u := rs.q s.rk
    let s1 : S := { s with rk := s.rk + 1 }
    if u > 0.85 then
      let hull_piece_length := uniformOf 0.1 0.4 (rs.q s1.rk)
      let s2 : S := { s1 with rk := s1.rk + 1 }
      let (count, s3) := S.rrange rs s2 parms.num_asymmetry_segments_min
        (parms.num_asymmetry_segments_max + 1)
      do
        let s4 ← asymChain rs hull_piece_length count s3 r
        return (s4, count)
    else .ok (s1, 0)

def asymFaces (rs : RStream) (parms : Parms) :
    List ℕ → S → ℕ → Except Err (S × ℕ)
  | [], s, total => .ok (s, total)
  | r :: rest, s, total => do
    let (s', c) ← asymFaceStep rs parms s r
    asymFaces rs parms rest s' (total + c)

/-- The asymmetry pass: runs only when enabled AND the bounds are not
inverted — `max < min` skips the whole pass (the guard wraps the block in
the source).  Returns the total number of protrusion segments performed. -/
def asymPass (rs : RStream) (parms : Parms) (s : S) : Except Err (S × ℕ) :=
  if parms.create_asymmetry_segments
      ∧ parms.num_asymmetry_segments_max ≥ parms.num_asymmetry_segments_min then
    asymFaces rs parms s.bm.liveRefs s 0
  else .ok (s, 0)

/-! ## Face classification and detail dispatch -/

/-- `face.normal.x > 0.9` (front face). -/
def isFrontFace (m : Mesh) (r : ℕ) : Bool :=
  let n := rawNormal m r
  compGtPos n.x n.normSq 0.9

/-- `face.normal.z > 0.9` (top face). -/
def isTopFace (m : Mesh) (r : ℕ) : Bool :=
  let n := rawNormal m r
  compGtPos n.z n.normSq 0.9

/-- `face.normal.z < -0.9` (bottom face). -/
def isBottomFace (m : Mesh) (r : ℕ) : Bool :=
  let n := rawNormal m r
  compLtNeg n.z n.normSq 0.9

/-- `abs(face.normal.y) > 0.9` (side face). -/
def isSideFace (m : Mesh) (r : ℕ) : Bool :=
  let n := rawNormal m r
  compAbsGt n.y n.normSq 0.9

/-- `face.normal.dot(face.calc_center_bounds()) > 0`, the outward-facing
heuristic; the sign agrees between the raw and the unit normal. -/
def normDotCenterPos (m : Mesh) (r : ℕ) : Bool :=
  decide (0 < (rawNormal m r).dot (calc_center_bounds m r))

/-- The seven classification buckets. -/
structure Buckets where
  engine : List ℕ := []
  grid : List ℕ := []
  antenna : List ℕ := []
  weapon : List ℕ := []
  sphere : List ℕ := []
  disc : List ℕ := []
  cylinder : List ℕ := []
deriving Repr, DecidableEq, Inhabited

/-- The outcome of classifying one face: which bucket it joins and/or which
material write happens.  `antennaLights` is the front-antenna branch, which
both buckets the face and sets the emissive hull material. -/
inductive CAction where
  | engine
  | cylinder
  | grid
  | antenna
  | antennaLights
  | weapon
  | sphere
  | disc
  | lights
  | keep
deriving Repr, DecidableEq

/-- The classification decision tree, with the source's thresholds and
branch order: rear, front, top, bottom, side, else keep the default
material. -/
def classifyDecision (m : Mesh) (bk : Buckets) (r : ℕ) (val : ℚ) : CAction :=
  if is_rear_face m r then
    if bk.engine.isEmpty ∨ val > 0.75 then .engine
    else if val > 0.5 then .cylinder
    else if val > 0.25 then .grid
    else .lights
  else if isFrontFace m r then
    if normDotCenterPos m r ∧ val > 0.7 then .antennaLights
    else if val > 0.4 then .grid
    else .lights
  else if isTopFace m r then
    if normDotCenterPos m r ∧ val > 0.7 then .antenna
    else if val > 0.6 then .grid
    else if val > 0.3 then .cylinder
    else .keep
  else if isBottomFace m r then
    if val > 0.75 then .disc
    else if val > 0.5 then .grid
    else if val > 0.25 then .weapon
    else .keep
  else if isSideFace m r then
    if bk.weapon.isEmpty ∨ val > 0.75 then .weapon
    else if val > 0.6 then .grid
    else if val > 0.4 then .sphere
    else .lights
  else .keep

/-- One face of the classification loop: skip aspect `> 3` without a draw,
otherwise draw `val`, decide via `classifyDecision`, and apply the outcome
(a bucket append and/or a `HULL_LIGHTS` material write). -/
def classifyStep (rs : RStream) (sb : S × Buckets) (r : ℕ) : S × Buckets :=
  let s := sb.1
  let bk := sb.2
  if aspect_gt s.bm r 3 then sb
  else
    let val := rs.q s.rk
    let s1 : S := { s with rk := s.rk + 1 }
    match classifyDecision s.bm bk r val with
    | .engine => (s1, { bk with engine := bk.engine ++ [r] })
    | .cylinder => (s1, { bk with cylinder := bk.cylinder ++ [r] })
    | .grid => (s1, { bk with grid := bk.grid ++ [r] })
    | .antenna => (s1, { bk with antenna := bk.antenna ++ [r] })
    | .antennaLights =>
      ({ s1 with bm := s1.bm.setMat r MATERIAL.HULL_LIGHTS },
       { bk with antenna := bk.antenna ++ [r] })
    | .weapon => (s1, { bk with weapon := bk.weapon ++ [r] })
    | .sphere => (s1, { bk with sphere := bk.sphere ++ [r] })
    | .disc => (s1, { bk with disc := bk.disc ++ [r] })
    | .lights => ({ s1 with bm := s1.bm.setMat r MATERIAL.HULL_LIGHTS }, bk)
    | .keep => (s1, bk)

/-- The classification loop over the face snapshot. -/
def classifyPass (rs : RStream) (refs : List ℕ) (sb : S × Buckets) :
    S × Buckets :=
  refs.foldl (classifyStep rs) sb

def runExhausts (rs : RStream) : List ℕ → S → Except Err S
  | [], s => .ok s
  | r :: rest, s => do
    let s' ← add_exhaust_to_face rs s r
    runExhausts rs rest s'

def runGrids (rs : RStream) : List ℕ → S → Except Err S
  | [], s => .ok s
  | r :: rest, s => do
    let sl ← add_grid_to_face rs s r
    runGrids rs rest sl.1

def runAntennas (rs : RStream) : List ℕ → S → Except Err S
  | [], s => .ok s
  | r :: rest, s => do
    let s' ← add_surface_antenna_to_face rs s r
    runAntennas rs rest s'

def runWeapons (rs : RStream) : List ℕ → S → Except Err S
  | [], s => .ok s
  | r :: rest, s => do
    let s' ← add_weapons_to_face rs s r
    runWeapons rs rest s'

def runSpheres (rs : RStream) : List ℕ → S → Except Err S
  | [], s => .ok s
  | r :: rest, s => do
    let s' ← add_sphere_to_face rs s r
    runSpheres rs rest s'

def runDiscs : List ℕ → S → Except Err S
  | [], s => .ok s
  | r :: rest, s => do
    let s' ← add_disc_to_face s r
    runDiscs rest s'

def runCylinders (rs : RStream) : List ℕ → S → Except Err S
  | [], s => .ok s
  | r :: rest, s => do
    let s' ← add_cylinders_to_face rs s r
    runCylinders rs rest s'

/-- The classification-plus-detail stage: snapshot the live faces, classify
them all, then run the generators bucket by bucket in the fixed order
engine → grid → antenna → weapon → sphere → disc → cylinder. -/
def detailPass (rs : RStream) (parms : Parms) (s : S) : Except Err S :=
  if parms.create_face_detail then
    let sb := classifyPass rs s.bm.liveRefs (s, {})
    do
      let s1 ← runExhausts rs sb.2.engine sb.1
      let s2 ← runGrids rs sb.2.grid s1
      let s3 ← runAntennas rs sb.2.antenna s2
      let s4 ← runWeapons rs sb.2.weapon s3
      let s5 ← runSpheres rs sb.2.sphere s4
      let s6 ← runDiscs sb.2.disc s5
      runCylinders rs sb.2.cylinder s6
  else .ok s

/-! ## Symmetry, cube seed, and the full pipeline -/

/-- The symmetry finalizer: each enabled direction fires with probability
0.5; the flag short-circuits, so a disabled direction consumes no draw. -/
def symPass (rs : RStream) (parms : Parms) (s : S) : S :=
  let sh :=
    if parms.allow_horizontal_symmetry then
      let (u, s1) := S.rand rs s
      if u > 0.5 then { s1 with bm := symmetrize s1.bm mirrorY } else s1
    else s
  if parms.allow_vertical_symmetry then
    let (u, s1) := S.rand rs sh
    if u > 0.5 then { s1 with bm := symmetrize s1.bm mirrorZ } else s1
  else sh

/-- Modelled from the spec: `bmesh.ops.create_cube(bm, size = 1)` — the unit
cube centred at the origin, outward-wound quads. -/
def createCube : Mesh :=
  let h : ℚ := 1 / 2
  { verts :=
      [⟨-h, -h, -h⟩, ⟨-h, -h, h⟩, ⟨-h, h, -h⟩, ⟨-h, h, h⟩,
       ⟨h, -h, -h⟩, ⟨h, -h, h⟩, ⟨h, h, -h⟩, ⟨h, h, h⟩],
    faces :=
      [⟨[0, 1, 3, 2], 0, true⟩, ⟨[4, 6, 7, 5], 0, true⟩,
       ⟨[0, 4, 5, 1], 0, true⟩, ⟨[2, 3, 7, 6], 0, true⟩,
       ⟨[0, 2, 6, 4], 0, true⟩, ⟨[1, 5, 7, 3], 0, true⟩] }

/-- The output of one generation call: the realized mesh (live faces only,
as `bm.to_mesh` writes them) plus the requested bevel width when the bevel
modifier is enabled. -/
structure GenOut where
  mesh : Mesh
  bevelWidth : Option ℚ
deriving Repr, DecidableEq, Inhabited

/-- `bm.to_mesh(me)`: the immutable output mesh holds the live faces. -/
def finalizeMesh (m : Mesh) : Mesh :=
  { verts := m.verts, faces := m.faces.filter (·.alive) }

/-- The body of `generate_spaceship` run against a given geometry stream:
seed cube, random per-axis scale, growth, asymmetry, detail, symmetry,
bevel-width draw. -/
def generateWith (rs : RStream) (parms : Parms) : Except Err GenOut := do
  let s0 : S := ⟨createCube, 0⟩
  let (sx, s1) := S.runi rs s0 0.75 2.0
  let (sy, s2) := S.runi rs s1 0.75 2.0
  let (sz, s3) := S.runi rs s2 0.75 2.0
  let scale_vector := V3.mk sx sy sz
  let s4 := { s3 with
    bm := bmScaleVec s3.bm scale_vector (List.range s3.bm.verts.length) }
  let s5 ← growArms rs parms scale_vector s4.bm.liveRefs s4
  let sa ← asymPass rs parms s5
  let s7 ← detailPass rs parms sa.1
  let s8 := symPass rs parms s7
  let bw :=
    if parms.add_bevel_modifier then
      let (w, s9) := S.runi rs s8 5 20
      (some w, s9)
    else (none, s8)
  return ⟨finalizeMesh bw.2.bm, bw.1⟩

/-- `generate_spaceship(parms)`: `geom_random = Random()` is freshly
OS-seeded (the ambient `entropy`), then re-seeded from `geom_ranseed` when
that is non-empty. -/
def generate_spaceship (parms : Parms) (entropy : RStream) :
    Except Err GenOut :=
  generateWith
    (if parms.geom_ranseed ≠ "" then seedStream parms.geom_ranseed else entropy)
    parms

/-! ## Helper lemmas -/

theorem bindOk {α β : Type} {x : Except Err α} {g : α → Except Err β} {b : β}
    (h : x >>= g = Except.ok b) : ∃ a, x = Except.ok a ∧ g a = Except.ok b := by
  cases x with
  | error e => simp [Bind.bind, Except.bind] at h
  | ok a => exact ⟨a, rfl, by simpa [Bind.bind, Except.bind] using h⟩

theorem listModify_get {α : Type} (g : α → α) (n k : ℕ) (l : List α) :
    (Mesh.listModify g n l).get? k =
      if k = n then (l.get? k).map g else l.get? k := by
  induction l generalizing n k with
  | nil => simp [Mesh.listModify]
  | cons x xs ih =>
    cases n with
    | zero => cases k <;> simp [Mesh.listModify]
    | succ n' =>
      cases k with
      | zero => simp [Mesh.listModify]
      | succ k' => simpa [Mesh.listModify] using ih n' k'

theorem mem_listModify {α : Type} {g : α → α} {n : ℕ} {l : List α} {y : α}
    (h : y ∈ Mesh.listModify g n l) : y ∈ l ∨ ∃ x, x ∈ l ∧ y = g x := by
  induction l generalizing n with
  | nil => simp [Mesh.listModify] at h
  | cons x xs ih =>
    cases n with
    | zero =>
      rw [Mesh.listModify, List.mem_cons] at h
      rcases h with rfl | h
      · exact Or.inr ⟨x, List.mem_cons_self _ _, rfl⟩
      · exact Or.inl (List.mem_cons_of_mem _ h)
    | succ n' =>
      rw [Mesh.listModify, List.mem_cons] at h
      rcases h with rfl | h
      · exact Or.inl (List.mem_cons_self _ _)
      · rcases ih h with h' | ⟨w, hw, rfl⟩
        · exact Or.inl (List.mem_cons_of_mem _ h')
        · exact Or.inr ⟨w, List.mem_cons_of_mem _ hw, rfl⟩

theorem faces_get_setMat (m : Mesh) (x c r : ℕ) :
    (m.setMat x c).faces.get? r =
      if r = x then (m.faces.get? r).map (fun f => { f with mat := c })
      else m.faces.get? r :=
  listModify_get _ x r m.faces

theorem getFace_setMat (m : Mesh) (x c r : ℕ) :
    (m.setMat x c).getFace r =
      if r = x then (m.getFace r).map (fun f => { f with mat := c })
      else m.getFace r := by
  unfold Mesh.getFace
  rw [faces_get_setMat]
  by_cases h : r = x
  · simp only [h, if_pos rfl]
    cases m.faces.get? x with
    | none => rfl
    | some f =>
      by_cases ha : f.alive
      · simp [ha]
      · simp [ha]
  · simp [h]

theorem verts_setMat (m : Mesh) (x c : ℕ) : (m.setMat x c).verts = m.verts := rfl

theorem faceVerts_setMat (m : Mesh) (x c r : ℕ) :
    (m.setMat x c).faceVerts r = m.faceVerts r := by
  unfold Mesh.faceVerts
  rw [getFace_setMat]
  by_cases h : r = x
  · simp only [h, if_pos rfl]
    cases m.getFace x with
    | none => rfl
    | some f => simp [Mesh.faceVertsOf, Mesh.getVert, verts_setMat]
  · simp only [if_neg h]
    cases m.getFace r with
    | none => rfl
    | some f => simp [Mesh.faceVertsOf, Mesh.getVert, verts_setMat]

theorem is_valid_setMat (m : Mesh) (x c r : ℕ) :
    (m.setMat x c).is_valid r = m.is_valid r := by
  unfold Mesh.is_valid
  rw [getFace_setMat]
  by_cases h : r = x
  · simp [h]
  · simp [h]

/-- The aspect predicate reads only the ring vertices and validity. -/
theorem aspect_gt_congr {m' m : Mesh} {r : ℕ} (t : ℚ)
    (h1 : m'.faceVerts r = m.faceVerts r)
    (h2 : m'.is_valid r = m.is_valid r) :
    aspect_gt m' r t = aspect_gt m r t := by
  unfold aspect_gt edge01Sq edge12Sq
  rw [h1, h2]

theorem rawNormal_congr {m' m : Mesh} {r : ℕ}
    (h1 : m'.faceVerts r = m.faceVerts r) :
    rawNormal m' r = rawNormal m r := by
  unfold rawNormal
  rw [h1]

/-! ## C1: determinism -/

/-- A concrete stream: all `random()` draws 0, all integer draws 0. -/
def streamA : RStream := ⟨fun _ => 0, fun _ => 0⟩

/-- A concrete stream differing from `streamA` in its `random()` draws. -/
def streamB : RStream := ⟨fun _ => 1 / 2, fun _ => 1⟩

/-- A concrete stream with the `random()` draws of `streamA` but different
integer draws. -/
def streamA2 : RStream := ⟨fun _ => 0, fun _ => 5⟩

def parmsMatSeed : Parms := { mat_ranseed := "42" }

def parmsSeed42 : Parms := { geom_ranseed := "42" }

/-- C1, counterexample to the material half of the claim: with the material
seed fixed (`mat_ranseed = "42"`), two runs of the operator's palette
derivation (`randomize_colours(self, random.Random())` in
`GenerateSpaceship.invoke`) disagree, because the material stream is the
freshly OS-seeded `Random()` — `mat_ranseed` is dead: no code reads it.  The
two ambient entropy streams are explicit and the palettes differ. -/
theorem c1_counterexample :
    parmsMatSeed.mat_ranseed = "42" ∧
      invoke_palette parmsMatSeed streamA ≠ invoke_palette parmsMatSeed streamB :=
  ⟨rfl, by with_unfolding_all decide⟩

/-- C1 (amended): for a fixed non-empty `geom_ranseed` and fixed parameters,
`generate_spaceship` is independent of the ambient entropy, so two runs are
bit-identical; and the derived palette is a deterministic function of the
`random()` draws of the material stream actually passed to
`randomize_colours` (the `mat_ranseed` parameter is never consulted, so a
fixed material seed does not reproduce palettes — see the
counterexample). -/
theorem c1_determinism :
    (∀ (p : Parms) (e1 e2 : RStream), p.geom_ranseed ≠ "" →
      generate_spaceship p e1 = generate_spaceship p e2)
    ∧ (∀ (s1 s2 : RStream) (p : Parms), (∀ i, s1.q i = s2.q i) →
      randomize_colours s1 p = randomize_colours s2 p) := by
  constructor
  · intro p e1 e2 h
    unfold generate_spaceship
    simp only [if_pos h]
  · intro s1 s2 p h
    unfold randomize_colours
    rw [h 0, h 1, h 2, h 3, h 4, h 5, h 6, h 7]

/-- C1 witness: the geometry half at seed `"42"` across two distinct entropy
streams, and the palette half across two streams agreeing on their
`random()` draws. -/
theorem c1_witness :
    generate_spaceship parmsSeed42 streamA = generate_spaceship parmsSeed42 streamB
    ∧ randomize_colours streamA ({} : Parms) = randomize_colours streamA2 ({} : Parms) :=
  ⟨c1_determinism.1 parmsSeed42 streamA streamB (by decide),
   c1_determinism.2 streamA streamA2 ({} : Parms) (fun _ => rfl)⟩

/-! ## C3: extrude_face error behaviour -/

/-- C3 counterexample: `extrude_face` has no validity guard.  On a concrete
mesh whose face 0 has been consumed, the call faults (the dead handle reaches
the kernel extrusion, `ReferenceError` in the host) instead of being a no-op
that returns the face unchanged. -/
theorem c3_counterexample :
    (createCube.killFace 0).is_valid 0 = false ∧
      extrude_face (createCube.killFace 0) 0 1 = Except.error Err.refError := by
  with_unfolding_all decide

/-- C3 (amended): `extrude_face` never fails on a valid face — for every
mesh, every live face handle and every distance it returns a result; on an
invalid (already consumed) face it faults with a reference error rather than
silently returning the face.  The silent no-op guard the claim describes
lives in the detail generators, not in `extrude_face`. -/
theorem c3_extrude_guard :
    (∀ (m : Mesh) (r : ℕ) (d : ℚ), m.is_valid r = true →
      (extrude_face m r d).isOk = true)
    ∧ (∀ (m : Mesh) (r : ℕ) (d : ℚ), m.is_valid r = false →
      extrude_face m r d = Except.error Err.refError) := by
  constructor
  · intro m r d h
    unfold Mesh.is_valid at h
    cases hf : m.getFace r with
    | none => rw [hf] at h; simp at h
    | some f => simp [extrude_face, extrude_discrete, hf, Except.isOk, Except.toBool]
  · intro m r d h
    unfold Mesh.is_valid at h
    cases hf : m.getFace r with
    | none => simp [extrude_face, extrude_discrete, hf]
    | some f => rw [hf] at h; simp at h

/-- C3 witness: the valid-face half of the guard theorem at a concrete live
cube face. -/
theorem c3_witness :
    createCube.is_valid 0 = true ∧ (extrude_face createCube 0 1).isOk = true :=
  ⟨by with_unfolding_all decide,
   c3_extrude_guard.1 createCube 0 1 (by with_unfolding_all decide)⟩

/-! ## C4: segment bounds and the inverted-bounds guards -/

/-- Asymmetry parameters with inverted bounds (`min = 5 > 2 = max`). -/
def parmsAsymInv : Parms :=
  { create_asymmetry_segments := true,
    num_asymmetry_segments_min := 5,
    num_asymmetry_segments_max := 2 }

/-- Hull-segment parameters with inverted bounds (`min = 5 > 2 = max`). -/
def parmsHullInv : Parms :=
  { num_hull_segments_min := 5, num_hull_segments_max := 2 }

/-- Hull-segment parameters that make an arm grow zero segments. -/
def parmsHullZero : Parms :=
  { num_hull_segments_min := 0, num_hull_segments_max := 0 }

/-- A stream whose `random()` draws are 0.9 — above the 0.85 asymmetry
threshold, so a protrusion chain would start on every eligible face if the
pass ran at all. -/
def stream09 : RStream := ⟨fun _ => 9 / 10, fun _ => 0⟩

/-- C4 counterexample: with asymmetry enabled and inverted asymmetry bounds
(`min = 5`, `max = 2`), the whole asymmetry pass is skipped — the state is
returned untouched and zero protrusion segments are performed — even on a
mesh with eligible faces and draws above the 0.85 threshold.  The claim says
inverted asymmetry bounds are treated as \"use min\", which here would mean
chains of exactly 5 segments. -/
theorem c4_counterexample :
    parmsAsymInv.create_asymmetry_segments = true ∧
      parmsAsymInv.num_asymmetry_segments_min = 5 ∧
      asymPass stream09 parmsAsymInv ⟨createCube, 0⟩ =
        Except.ok (⟨createCube, 0⟩, 0) := by
  refine ⟨rfl, rfl, ?_⟩
  unfold asymPass
  rw [if_neg]
  intro hc
  exact absurd hc.2 (by decide)

/-- C4 (amended): hull-segment counts respect the bounds — a draw in
`[min, max]` when `max ≥ min`, exactly `min` when the bounds are inverted —
and every arm performs exactly that determined count of growth segments (in
particular `min = 5, max = 2` gives exactly 5 per arm); for the asymmetry
counts, inverted bounds skip the pass entirely (zero protrusion segments,
state unchanged).  Neither guard can raise: both are total functions. -/
theorem c4_segment_bounds :
    (∀ (rs : RStream) (p : Parms) (s : S),
      p.num_hull_segments_min ≤ p.num_hull_segments_max →
      p.num_hull_segments_min ≤ (numHullSegmentsDraw rs p s).1
        ∧ (numHullSegmentsDraw rs p s).1 ≤ p.num_hull_segments_max)
    ∧ (∀ (rs : RStream) (p : Parms) (s : S),
      p.num_hull_segments_max < p.num_hull_segments_min →
      (numHullSegmentsDraw rs p s).1 = p.num_hull_segments_min)
    ∧ (∀ (rs : RStream) (p : Parms) (sv : V3) (s : S) (r : ℕ) (out : S × ℕ),
      growArm rs p sv s r = Except.ok out →
      out.2 = (numHullSegmentsDraw rs p { s with rk := s.rk + 1 }).1)
    ∧ (∀ (rs : RStream) (p : Parms) (s : S),
      p.num_asymmetry_segments_max < p.num_asymmetry_segments_min →
      asymPass rs p s = Except.ok (s, 0)) := by
  refine ⟨?_, ?_, ?_, ?_⟩
  · intro rs p s h
    unfold numHullSegmentsDraw S.rrange
    rw [if_pos h]
    have hk : 0 < p.num_hull_segments_max + 1 - p.num_hull_segments_min := by omega
    have := Nat.mod_lt (rs.n s.rk) hk
    constructor
    · exact Nat.le_add_right _ _
    · omega
  · intro rs p s h
    unfold numHullSegmentsDraw
    rw [if_neg]
    omega
  · intro rs p sv s r out h
    unfold growArm at h
    obtain ⟨a, _, hb⟩ := bindOk h
    cases a with
    | mk a1 a2 =>
      simp only [pure, Except.pure, Except.ok.injEq] at hb
      rw [← hb]
  · intro rs p s h
    unfold asymPass
    rw [if_neg]
    intro hc
    omega

/-- C4 witness: the three guards at concrete inputs — default bounds 3..6,
inverted hull bounds 5..2, a zero-segment arm, and the skipped asymmetry
pass. -/
theorem c4_witness :
    (3 ≤ (numHullSegmentsDraw streamB ({} : Parms) ⟨createCube, 0⟩).1
      ∧ (numHullSegmentsDraw streamB ({} : Parms) ⟨createCube, 0⟩).1 ≤ 6)
    ∧ (numHullSegmentsDraw streamB parmsHullInv ⟨createCube, 0⟩).1 = 5
    ∧ ((growArm streamB parmsHullZero ⟨1, 1, 1⟩ ⟨createCube, 0⟩ 0).toOption.getD
          default).2 =
        (numHullSegmentsDraw streamB parmsHullZero ⟨createCube, 1⟩).1
    ∧ asymPass streamB parmsAsymInv ⟨createCube, 0⟩ =
        Except.ok (⟨createCube, 0⟩, 0) :=
  ⟨c4_segment_bounds.1 streamB ({} : Parms) ⟨createCube, 0⟩ (by decide),
   c4_segment_bounds.2.1 streamB parmsHullInv ⟨createCube, 0⟩ (by decide),
   c4_segment_bounds.2.2.1 streamB parmsHullZero ⟨1, 1, 1⟩ ⟨createCube, 0⟩ 0 _
     (by with_unfolding_all decide),
   c4_segment_bounds.2.2.2 streamB parmsAsymInv ⟨createCube, 0⟩ (by decide)⟩

/-! ## C8: the face frame -/

def M3.col0 (a : M3) : V3 := ⟨a.m00, a.m10, a.m20⟩

def M3.col1 (a : M3) : V3 := ⟨a.m01, a.m11, a.m21⟩

def M3.col2 (a : M3) : V3 := ⟨a.m02, a.m12, a.m22⟩

/-- A non-rectangular planar quad: bounding-box center `(1, 3/2, 0)`, vertex
centroid `(1, 1, 0)`. -/
def quadM : Mesh :=
  { verts := [⟨0, 0, 0⟩, ⟨2, 0, 0⟩, ⟨2, 1, 0⟩, ⟨0, 3, 0⟩],
    faces := [⟨[0, 1, 2, 3], 0, true⟩] }

/-- The unit square face in the XY plane (normal `+z`). -/
def squareM : Mesh :=
  { verts := [⟨0, 0, 0⟩, ⟨1, 0, 0⟩, ⟨1, 1, 0⟩, ⟨0, 1, 0⟩],
    faces := [⟨[0, 1, 2, 3], 0, true⟩] }

/-- C8 counterexample: on a concrete non-rectangular quad with no position
override, the frame origin `get_face_matrix` returns is the bounding-box
center `(1, 3/2, 0)` (`face.calc_center_bounds()`), not the face's centroid
`(1, 1, 0)`. -/
theorem c8_counterexample :
    (get_face_matrix quadM 0 none).toOption.map Aff.tr = some ⟨1, 3 / 2, 0⟩
    ∧ centroid_spec quadM 0 = ⟨1, 1, 0⟩
    ∧ (⟨1, 3 / 2, 0⟩ : V3) ≠ ⟨1, 1, 0⟩ := by
  with_unfolding_all decide

/-- C8 (amended): for every valid face, the frame's x-axis is the normalized
first-to-second vertex vector, its z-axis the negated unit face normal, its
y-axis the cross product `ẑ × x̂`, and its origin the supplied override if
any, else the center of the face's bounding box (`calc_center_bounds`) — not
the vertex centroid, see the counterexample. -/
theorem c8_face_frame :
    ∀ (m : Mesh) (r : ℕ) (pos : Option V3) (M : Aff),
      get_face_matrix m r pos = Except.ok M →
      M.lin.col0 = normalizeV
          (((m.faceVerts r).getD 1 V3.zero).sub ((m.faceVerts r).getD 0 V3.zero))
      ∧ M.lin.col2 = (unitNormal m r).neg
      ∧ M.lin.col1 = M.lin.col2.cross M.lin.col0
      ∧ M.tr = (match pos with
          | some p => p
          | none => calc_center_bounds m r) := by
  intro m r pos M h
  unfold get_face_matrix at h
  cases hf : m.getFace r with
  | none => rw [hf] at h; simp at h
  | some f =>
    rw [hf] at h
    simp only [Except.ok.injEq] at h
    subst h
    have hv : m.faceVerts r = m.faceVertsOf f := by
      unfold Mesh.faceVerts
      rw [hf]
    rw [hv]
    exact ⟨rfl, rfl, rfl, rfl⟩

/-- C8 witness: the frame theorem at the concrete unit square with no
override. -/
theorem c8_witness :
    ((get_face_matrix squareM 0 none).toOption.getD default).lin.col0 =
      normalizeV (((squareM.faceVerts 0).getD 1 V3.zero).sub
        ((squareM.faceVerts 0).getD 0 V3.zero))
    ∧ ((get_face_matrix squareM 0 none).toOption.getD default).lin.col2 =
      (unitNormal squareM 0).neg
    ∧ ((get_face_matrix squareM 0 none).toOption.getD default).lin.col1 =
      ((get_face_matrix squareM 0 none).toOption.getD default).lin.col2.cross
        ((get_face_matrix squareM 0 none).toOption.getD default).lin.col0
    ∧ ((get_face_matrix squareM 0 none).toOption.getD default).tr =
      calc_center_bounds squareM 0 :=
  c8_face_frame squareM 0 none
    ((get_face_matrix squareM 0 none).toOption.getD default)
    (by with_unfolding_all decide)

/-! ## C6: detail-generator guards -/

/-- C6: every one of the seven detail generators returns the state unchanged
(no mesh mutation, no draws) on an invalidated face; the three that do quad
grid math over `verts[0..3]` (cylinders, weapons, antennas) also bail out on
faces with fewer than four vertices. -/
theorem c6_generator_guards :
    (∀ (rs : RStream) (s : S) (r : ℕ), s.bm.is_valid r = false →
      add_exhaust_to_face rs s r = Except.ok s
      ∧ add_grid_to_face rs s r = Except.ok (s, [])
      ∧ add_cylinders_to_face rs s r = Except.ok s
      ∧ add_weapons_to_face rs s r = Except.ok s
      ∧ add_sphere_to_face rs s r = Except.ok s
      ∧ add_surface_antenna_to_face rs s r = Except.ok s
      ∧ add_disc_to_face s r = Except.ok s)
    ∧ (∀ (rs : RStream) (s : S) (r : ℕ), (s.bm.faceVerts r).length < 4 →
      add_cylinders_to_face rs s r = Except.ok s
      ∧ add_weapons_to_face rs s r = Except.ok s
      ∧ add_surface_antenna_to_face rs s r = Except.ok s) := by
  constructor
  · intro rs s r h
    refine ⟨?_, ?_, ?_, ?_, ?_, ?_, ?_⟩
    · unfold add_exhaust_to_face; rw [if_pos h]
    · unfold add_grid_to_face; rw [if_pos h]
    · unfold add_cylinders_to_face; rw [if_pos (Or.inl h)]
    · unfold add_weapons_to_face; rw [if_pos (Or.inl h)]
    · unfold add_sphere_to_face; rw [if_pos h]
    · unfold add_surface_antenna_to_face; rw [if_pos (Or.inl h)]
    · unfold add_disc_to_face; rw [if_pos h]
  · intro rs s r h
    refine ⟨?_, ?_, ?_⟩
    · unfold add_cylinders_to_face; rw [if_pos (Or.inr h)]
    · unfold add_weapons_to_face; rw [if_pos (Or.inr h)]
    · unfold add_surface_antenna_to_face; rw [if_pos (Or.inr h)]

/-- A state whose face 0 has been consumed. -/
def deadS : S := ⟨createCube.killFace 0, 0⟩

/-- A state holding a triangle face (fewer than four vertices). -/
def triS : S :=
  ⟨{ verts := [⟨0, 0, 0⟩, ⟨1, 0, 0⟩, ⟨0, 1, 0⟩],
     faces := [⟨[0, 1, 2], 0, true⟩] }, 0⟩

/-- C6 witness: the guards at a concrete dead face and a concrete triangle
face. -/
theorem c6_witness :
    add_exhaust_to_face streamA deadS 0 = Except.ok deadS
    ∧ add_disc_to_face deadS 0 = Except.ok deadS
    ∧ add_cylinders_to_face streamA triS 0 = Except.ok triS
    ∧ add_surface_antenna_to_face streamA triS 0 = Except.ok triS :=
  ⟨(c6_generator_guards.1 streamA deadS 0 (by with_unfolding_all decide)).1,
   (c6_generator_guards.1 streamA deadS 0 (by with_unfolding_all decide)).2.2.2.2.2.2,
   (c6_generator_guards.2 streamA triS 0 (by with_unfolding_all decide)).1,
   (c6_generator_guards.2 streamA triS 0 (by with_unfolding_all decide)).2.2⟩

/-! ## C9: scale_face with unit factors is the identity -/

theorem V3.add_neg_cancel_right (p q : V3) : (p.add q).add q.neg = p := by
  cases p
  cases q
  simp only [V3.add, V3.neg, V3.mk.injEq]
  exact ⟨by ring, by ring, by ring⟩

theorem M3.adj_mul (a : M3) : a.adj.mul a = M3.smul a.det M3.one := by
  cases a
  simp only [M3.adj, M3.mul, M3.smul, M3.det, M3.one, M3.mk.injEq]
  exact ⟨by ring, by ring, by ring, by ring, by ring, by ring, by ring, by ring, by ring⟩

theorem M3.smul_mul (c : ℚ) (a b : M3) :
    (M3.smul c a).mul b = M3.smul c (a.mul b) := by
  cases a
  cases b
  simp only [M3.smul, M3.mul, M3.mk.injEq]
  exact ⟨by ring, by ring, by ring, by ring, by ring, by ring, by ring, by ring, by ring⟩

theorem M3.smul_smul (c d : ℚ) (a : M3) :
    M3.smul c (M3.smul d a) = M3.smul (c * d) a := by
  cases a
  simp only [M3.smul, M3.mk.injEq]
  exact ⟨by ring, by ring, by ring, by ring, by ring, by ring, by ring, by ring, by ring⟩

theorem M3.one_smul_eq (a : M3) : M3.smul 1 a = a := by
  cases a
  simp [M3.smul]

/-- Left-inverse correctness of the exact matrix inverse. -/
theorem M3.inv_mul {a k : M3} (h : a.inv = some k) : k.mul a = M3.one := by
  unfold M3.inv at h
  by_cases hd : a.det = 0
  · rw [if_pos hd] at h
    exact absurd h (by simp)
  · rw [if_neg hd] at h
    have hk : k = M3.smul (1 / a.det) a.adj := by
      cases h
      rfl
    subst hk
    rw [M3.smul_mul, M3.adj_mul, M3.smul_smul, one_div,
      inv_mul_cancel₀ hd, M3.one_smul_eq]

theorem M3.mul_mulV (a b : M3) (v : V3) :
    (a.mul b).mulV v = a.mulV (b.mulV v) := by
  cases a
  cases b
  cases v
  simp only [M3.mul, M3.mulV, V3.mk.injEq]
  exact ⟨by ring, by ring, by ring⟩

theorem M3.one_mulV (v : V3) : M3.one.mulV v = v := by
  cases v
  simp only [M3.one, M3.mulV, V3.mk.injEq]
  exact ⟨by ring, by ring, by ring⟩

theorem M3.mulV_add (a : M3) (u v : V3) :
    a.mulV (u.add v) = (a.mulV u).add (a.mulV v) := by
  cases a
  cases u
  cases v
  simp only [M3.mulV, V3.add, V3.mk.injEq]
  exact ⟨by ring, by ring, by ring⟩

/-- An affine inverse undoes the transform. -/
theorem Aff.inv_apply {a b : Aff} (h : a.inv = some b) (v : V3) :
    b.apply (a.apply v) = v := by
  unfold Aff.inv at h
  cases hk : a.lin.inv with
  | none => rw [hk] at h; exact absurd h (by simp)
  | some k =>
    rw [hk] at h
    simp only [Option.some.injEq] at h
    subst h
    show V3.add (k.mulV (V3.add (a.lin.mulV v) a.tr)) (k.mulV a.tr).neg = v
    rw [M3.mulV_add, V3.add_neg_cancel_right, ← M3.mul_mulV, M3.inv_mul hk,
      M3.one_mulV]

theorem mapFromIdx_id {g : V3 → V3} (hg : ∀ v, g v = v) (idxs : List ℕ) :
    ∀ (k : ℕ) (l : List V3), Mesh.mapFromIdx idxs g k l = l := by
  intro k l
  induction l generalizing k with
  | nil => rfl
  | cons x xs ih =>
    unfold Mesh.mapFromIdx
    rw [ih (k + 1)]
    by_cases hk : k ∈ idxs
    · rw [if_pos hk, hg]
    · rw [if_neg hk]

/-- C9: `scale_face` with factors `(1, 1, 1)` leaves every vertex position
of the mesh unchanged — whenever the call completes, the vertex table is
exactly the input one.  (When the face frame is singular the source raises
`ValueError` before touching any vertex, so positions are also unchanged;
in the embedding that path returns an error without a mesh.) -/
theorem c9_scale_face_identity :
    ∀ (m : Mesh) (r : ℕ) (m' : Mesh),
      scale_face m r 1 1 1 = Except.ok m' → m'.verts = m.verts := by
  intro m r m' h
  unfold scale_face at h
  split at h
  · exact absurd h (by simp)
  · split at h
    · exact absurd h (by simp)
    · rename_i fm A hA
      unfold bmScaleSpace at h
      split at h
      all_goals
        split at h
        · exact absurd h (by simp)
        · rename_i B hB
          simp only [Except.ok.injEq] at h
          subst h
          show Mesh.mapFromIdx _ _ 0 m.verts = m.verts
          apply mapFromIdx_id
          intro v
          have hdiag : (M3.diag 1 1 1) = M3.one := rfl
          rw [hdiag, M3.one_mulV]
          exact Aff.inv_apply hB v

/-- C9 witness: the identity at the concrete unit square face (whose frame
is orthonormal, hence invertible). -/
theorem c9_witness :
    ((scale_face squareM 0 1 1 1).toOption.getD default).verts = squareM.verts :=
  c9_scale_face_identity squareM 0
    ((scale_face squareM 0 1 1 1).toOption.getD default)
    (by with_unfolding_all decide)

/-! ## C5 and C10: classification lemmas -/

/-- Classification only bumps the draw counter and writes material indices:
ring vertices are untouched. -/
theorem classifyStep_faceVerts (rs : RStream) (sb : S × Buckets) (q r : ℕ) :
    (classifyStep rs sb q).1.bm.faceVerts r = sb.1.bm.faceVerts r := by
  unfold classifyStep
  dsimp only
  split
  · rfl
  · split <;> simp [faceVerts_setMat]

theorem classifyStep_is_valid (rs : RStream) (sb : S × Buckets) (q r : ℕ) :
    (classifyStep rs sb q).1.bm.is_valid r = sb.1.bm.is_valid r := by
  unfold classifyStep
  dsimp only
  split
  · rfl
  · split <;> simp [is_valid_setMat]

theorem classifyStep_aspect (rs : RStream) (sb : S × Buckets) (q r : ℕ)
    (t : ℚ) : aspect_gt (classifyStep rs sb q).1.bm r t = aspect_gt sb.1.bm r t :=
  aspect_gt_congr t (classifyStep_faceVerts rs sb q r)
    (classifyStep_is_valid rs sb q r)

theorem is_rear_congr {m' m : Mesh} {r : ℕ}
    (h1 : m'.faceVerts r = m.faceVerts r) :
    is_rear_face m' r = is_rear_face m r := by
  unfold is_rear_face
  rw [rawNormal_congr h1]

theorem classifyStep_rear (rs : RStream) (sb : S × Buckets) (q r : ℕ) :
    is_rear_face (classifyStep rs sb q).1.bm r = is_rear_face sb.1.bm r :=
  is_rear_congr (classifyStep_faceVerts rs sb q r)

/-- Membership in any of the seven buckets. -/
def memBuckets (r : ℕ) (bk : Buckets) : Prop :=
  r ∈ bk.engine ∨ r ∈ bk.grid ∨ r ∈ bk.antenna ∨ r ∈ bk.weapon
    ∨ r ∈ bk.sphere ∨ r ∈ bk.disc ∨ r ∈ bk.cylinder

instance (r : ℕ) (bk : Buckets) : Decidable (memBuckets r bk) := by
  unfold memBuckets
  infer_instance

/-- A classification step buckets a face only when its aspect filter
passed. -/
theorem classifyStep_mem {rs : RStream} {sb : S × Buckets} {q r : ℕ}
    (h : memBuckets r (classifyStep rs sb q).2) :
    memBuckets r sb.2 ∨ (r = q ∧ aspect_gt sb.1.bm q 3 = false) := by
  by_cases ha : aspect_gt sb.1.bm q 3 = true
  · unfold classifyStep at h
    rw [if_pos ha] at h
    exact Or.inl h
  · have ha' : aspect_gt sb.1.bm q 3 = false := by
      simpa using ha
    unfold classifyStep at h
    dsimp only at h
    rw [if_neg ha] at h
    unfold memBuckets at h ⊢
    split at h
    all_goals
      simp only [List.mem_append, List.mem_singleton] at h
      tauto

/-- The classification pass buckets only faces whose aspect filter passed at
classification time (material writes during the pass do not move vertices,
so the aspect is that of the starting mesh). -/
theorem classifyPass_mem (rs : RStream) (refs : List ℕ) :
    ∀ (sb : S × Buckets) (r : ℕ),
      memBuckets r (classifyPass rs refs sb).2 →
      memBuckets r sb.2 ∨ aspect_gt sb.1.bm r 3 = false := by
  induction refs with
  | nil => exact fun sb r h => Or.inl h
  | cons q rest ih =>
    intro sb r h
    have hfold : classifyPass rs (q :: rest) sb =
        classifyPass rs rest (classifyStep rs sb q) := rfl
    rw [hfold] at h
    rcases ih (classifyStep rs sb q) r h with h' | h'
    · rcases classifyStep_mem h' with h'' | ⟨rfl, h3⟩
      · exact Or.inl h''
      · exact Or.inr h3
    · rw [classifyStep_aspect] at h'
      exact Or.inr h'

/-- C5: no detail generator is dispatched to a face whose aspect ratio
exceeded 3 at classification time — a face in any bucket of the
classification pass passed the filter — and the asymmetry pass skips a face
of aspect ratio above 4 outright: the state comes back unchanged with zero
protrusion segments, before any draw is consumed. -/
theorem c5_aspect_filter :
    (∀ (rs : RStream) (refs : List ℕ) (s : S) (r : ℕ),
      memBuckets r (classifyPass rs refs (s, ({} : Buckets))).2 →
      aspect_gt s.bm r 3 = false)
    ∧ (∀ (rs : RStream) (p : Parms) (s : S) (r : ℕ),
      aspect_gt s.bm r 4 = true →
      asymFaceStep rs p s r = Except.ok (s, 0)) := by
  constructor
  · intro rs refs s r h
    rcases classifyPass_mem rs refs (s, ({} : Buckets)) r h with h' | h'
    · exact absurd h' (by simp [memBuckets])
    · exact h'
  · intro rs p s r h
    unfold asymFaceStep
    rw [if_pos h]

/-- A long thin quad: aspect ratio 5. -/
def thinM : Mesh :=
  { verts := [⟨0, 0, 0⟩, ⟨5, 0, 0⟩, ⟨5, 1, 0⟩, ⟨0, 1, 0⟩],
    faces := [⟨[0, 1, 2, 3], 0, true⟩] }

/-- C5 witness: a concrete cube face bucketed by a concrete classification
run passed the filter, and the asymmetry step at a concrete aspect-5 face is
the identity. -/
theorem c5_witness :
    aspect_gt createCube 0 3 = false
    ∧ asymFaceStep streamA ({} : Parms) ⟨thinM, 0⟩ 0 = Except.ok (⟨thinM, 0⟩, 0) :=
  ⟨c5_aspect_filter.1 streamB createCube.liveRefs ⟨createCube, 0⟩ 0
      (by with_unfolding_all decide),
   c5_aspect_filter.2 streamA ({} : Parms) ⟨thinM, 0⟩ 0
      (by with_unfolding_all decide)⟩

/-- The engine bucket only grows during classification. -/
theorem classifyStep_engine_grows (rs : RStream) (sb : S × Buckets) (q : ℕ) :
    (classifyStep rs sb q).2.engine = sb.2.engine
    ∨ (classifyStep rs sb q).2.engine = sb.2.engine ++ [q] := by
  unfold classifyStep
  dsimp only
  split
  · exact Or.inl rfl
  · split <;> simp

theorem classifyPass_engine_ne (rs : RStream) (refs : List ℕ) :
    ∀ (sb : S × Buckets), sb.2.engine ≠ [] →
      (classifyPass rs refs sb).2.engine ≠ [] := by
  induction refs with
  | nil => exact fun sb h => h
  | cons q rest ih =>
    intro sb h
    have hfold : classifyPass rs (q :: rest) sb =
        classifyPass rs rest (classifyStep rs sb q) := rfl
    rw [hfold]
    apply ih
    rcases classifyStep_engine_grows rs sb q with h' | h'
    · rw [h']; exact h
    · rw [h']; simp

/-- A rear face passing the filter while the engine bucket is empty is
bucketed as an engine face whatever the draw: the decision condition is
`not engine_faces or val > 0.75`. -/
theorem classifyStep_first_rear (rs : RStream) (s : S) (bk : Buckets) (q : ℕ)
    (he : bk.engine = []) (hrear : is_rear_face s.bm q = true)
    (hasp : aspect_gt s.bm q 3 = false) :
    (classifyStep rs (s, bk) q).2.engine = [q] := by
  have hd : classifyDecision s.bm bk q (rs.q s.rk) = CAction.engine := by
    unfold classifyDecision
    rw [if_pos hrear, if_pos (Or.inl (by simp [he]))]
  unfold classifyStep
  dsimp only
  rw [if_neg (by simp [hasp])]
  simp only [hd]
  simp [he]

theorem c10_aux (rs : RStream) (refs : List ℕ) :
    ∀ (s : S) (bk : Buckets) (r : ℕ), r ∈ refs →
      is_rear_face s.bm r = true → aspect_gt s.bm r 3 = false →
      (classifyPass rs refs (s, bk)).2.engine ≠ [] := by
  induction refs with
  | nil => intro s bk r hr; simp at hr
  | cons q rest ih =>
    intro s bk r hr hrear hasp
    have hfold : classifyPass rs (q :: rest) (s, bk) =
        classifyPass rs rest (classifyStep rs (s, bk) q) := rfl
    rw [hfold]
    rcases List.mem_cons.mp hr with rfl | hr'
    · apply classifyPass_engine_ne
      by_cases he : bk.engine = []
      · rw [classifyStep_first_rear rs s bk r he hrear hasp]
        simp
      · rcases classifyStep_engine_grows rs (s, bk) r with h' | h'
        · rw [h']; exact he
        · rw [h']; simp
    · have h1 := classifyStep_rear rs (s, bk) q r
      have h2 := classifyStep_aspect rs (s, bk) q r 3
      exact ih (classifyStep rs (s, bk) q).1 (classifyStep rs (s, bk) q).2 r hr'
        (by rw [h1]; exact hrear) (by rw [h2]; exact hasp)

/-- C10: a rear face that passes the aspect filter while the engine bucket
is still empty is appended to it whatever the draw — the branch condition is
`not engine_faces or val > 0.75` — hence one rear face passing the filter in
the snapshot suffices to make the engine bucket of the classification pass
non-empty. -/
theorem c10_engine_bucket :
    (∀ (rs : RStream) (s : S) (bk : Buckets) (q : ℕ),
      bk.engine = [] → is_rear_face s.bm q = true →
      aspect_gt s.bm q 3 = false →
      (classifyStep rs (s, bk) q).2.engine = [q])
    ∧ (∀ (rs : RStream) (refs : List ℕ) (s : S) (r : ℕ),
      r ∈ refs → is_rear_face s.bm r = true → aspect_gt s.bm r 3 = false →
      (classifyPass rs refs (s, ({} : Buckets))).2.engine ≠ []) := by
  constructor
  · exact classifyStep_first_rear
  · intro rs refs s r hr hrear hasp
    exact c10_aux rs refs s {} r hr hrear hasp

/-- C10 witness: on the concrete seed cube, face 0 (the `-x` end cap) is a
rear face passing the filter, so the step appends it to the empty engine
bucket and the pass ends with a non-empty engine bucket. -/
theorem c10_witness :
    (classifyStep streamB (⟨createCube, 0⟩, ({} : Buckets)) 0).2.engine = [0]
    ∧ (classifyPass streamB createCube.liveRefs
        (⟨createCube, 0⟩, ({} : Buckets))).2.engine ≠ [] :=
  ⟨c10_engine_bucket.1 streamB ⟨createCube, 0⟩ {} 0 rfl
      (by with_unfolding_all decide) (by with_unfolding_all decide),
   c10_engine_bucket.2 streamB createCube.liveRefs ⟨createCube, 0⟩ 0
      (by with_unfolding_all decide) (by with_unfolding_all decide)
      (by with_unfolding_all decide)⟩

/-! ## C7: the grid generator -/

/-- Material slot of a face handle (slot 0 for an out-of-range handle). -/
def faceMat (m : Mesh) (r : ℕ) : ℕ := (m.faces.getD r default).mat

theorem listModify_length {α : Type} (g : α → α) (n : ℕ) (l : List α) :
    (Mesh.listModify g n l).length = l.length := by
  induction l generalizing n with
  | nil => cases n <;> rfl
  | cons x xs ih =>
    cases n with
    | zero => rfl
    | succ n' => simpa [Mesh.listModify] using ih n'

theorem setMat_faces_length (m : Mesh) (x c : ℕ) :
    (m.setMat x c).faces.length = m.faces.length :=
  listModify_length _ x m.faces

theorem faceMat_setMat (m : Mesh) (x mi sr : ℕ)
    (hsr : sr < m.faces.length) :
    faceMat (m.setMat x mi) sr = if sr = x then mi else faceMat m sr := by
  obtain ⟨f, hf⟩ : ∃ f, m.faces.get? sr = some f := by
    rw [List.get?_eq_getElem?]
    exact ⟨_, List.getElem?_eq_getElem hsr⟩
  have h1 := faces_get_setMat m x mi sr
  unfold faceMat
  by_cases h : sr = x
  · rw [if_pos h]
    rw [if_pos h, hf] at h1
    simp only [Option.map_some'] at h1
    rw [List.getD_eq_getElem?_getD, ← List.get?_eq_getElem?, h1]
    rfl
  · rw [if_neg h]
    rw [if_neg h] at h1
    rw [List.getD_eq_getElem?_getD, List.getD_eq_getElem?_getD,
      ← List.get?_eq_getElem?, ← List.get?_eq_getElem?, h1]

theorem nearVerticalZ_setMat (m : Mesh) (x c top : ℕ) :
    nearVerticalZ (m.setMat x c) top = nearVerticalZ m top := by
  unfold nearVerticalZ
  rw [rawNormal_congr (faceVerts_setMat m x c top)]

/-- What the side-tagging loop of the grid generator actually does: because
the source tests `face.normal.z` — the cell's extruded top face — every
reported side face of a cell gets the material when the top face is
near-vertical, and none does otherwise. -/
theorem tagSides_mat (top mi : ℕ) (sides : List ℕ) :
    ∀ (m : Mesh) (sr : ℕ), sr < m.faces.length →
      faceMat (tagSides top mi sides m) sr =
        if nearVerticalZ m top = true ∧ sr ∈ sides then mi
        else faceMat m sr := by
  induction sides with
  | nil =>
    intro m sr _
    simp [tagSides]
  | cons c cs ih =>
    intro m sr hsr
    have hfold : tagSides top mi (c :: cs) m =
        tagSides top mi cs
          (if nearVerticalZ m top then m.setMat c mi else m) := rfl
    rw [hfold]
    by_cases hnv : nearVerticalZ m top = true
    · rw [if_pos hnv]
      rw [ih (m.setMat c mi) sr (by rw [setMat_faces_length]; exact hsr)]
      rw [nearVerticalZ_setMat, faceMat_setMat m c mi sr hsr]
      by_cases hc : sr = c
      · subst hc
        simp [hnv]
      · by_cases hcs : sr ∈ cs
        · simp [hnv, hc, hcs]
        · simp [hnv, hc, hcs]
    · have hnv' : nearVerticalZ m top = false := by simpa using hnv
      rw [if_neg hnv]
      rw [ih m sr hsr, hnv']
      simp

/-- The stream whose `random()` draws are all 1 and integer draws all 0:
the grid generator then uses 2 cuts and chooses `HULL_LIGHTS` for every
cell. -/
def oneStream : RStream := ⟨fun _ => 1, fun _ => 0⟩

/-- The concrete grid-generator run of the counterexample: the generator on
the single top-facing unit square face. -/
def gridRun : Except Err (S × List GridCellLog) :=
  add_grid_to_face oneStream ⟨squareM, 0⟩ 0

set_option maxRecDepth 100000 in
set_option maxHeartbeats 4000000 in
/-- C7 counterexample: in the concrete run `gridRun`, the first cell chose
`HULL_LIGHTS`, face 11 is one of that cell's reported extrusion side faces
and is near-vertical (`|normal.z| < 0.707` holds — the cell sides are
vertical walls), yet its material is still the default `HULL`: the claim
says exactly the near-vertical side faces receive the chosen material.  (The
code instead tests the extruded top face of the cell, which faces `+z`
here.) -/
theorem c7_counterexample :
    ((gridRun.toOption.getD default).2.headD default).chosen = MATERIAL.HULL_LIGHTS
    ∧ 11 ∈ ((gridRun.toOption.getD default).2.headD default).sides
    ∧ nearVerticalZ (gridRun.toOption.getD default).1.bm 11 = true
    ∧ faceMat (gridRun.toOption.getD default).1.bm 11 = MATERIAL.HULL
    ∧ MATERIAL.HULL ≠ MATERIAL.HULL_LIGHTS := by
  with_unfolding_all decide

/-- C7 (amended): the grid generator draws its cut count uniformly from
`[2, 4]` and chooses each cell's material 50/50 between the two hull
variants (`HULL_LIGHTS` iff the draw exceeds 0.5); but the tagging of the
extrusion side faces is keyed on the cell's extruded *top* face: when that
top face is near-vertical every reported side face receives the chosen
material, and otherwise none does (see `c7_counterexample`); the final
scale-down of the cell face changes no face record. -/
theorem c7_grid_behaviour :
    (∀ (rs : RStream) (s : S),
      2 ≤ (S.rint rs s 2 4).1 ∧ (S.rint rs s 2 4).1 ≤ 4)
    ∧ (∀ (rs : RStream) (gl : ℚ) (s : S) (cr : ℕ) (out : S × GridCellLog),
      gridCellStep rs gl s cr = Except.ok out →
      out.2.chosen =
        if rs.q s.rk > 0.5 then MATERIAL.HULL_LIGHTS else MATERIAL.HULL)
    ∧ (∀ (top mi : ℕ) (sides : List ℕ) (m : Mesh) (sr : ℕ),
      sr < m.faces.length →
      faceMat (tagSides top mi sides m) sr =
        if nearVerticalZ m top = true ∧ sr ∈ sides then mi
        else faceMat m sr)
    ∧ (∀ (m : Mesh) (r : ℕ) (a b c : ℚ) (m' : Mesh),
      scale_face m r a b c = Except.ok m' → m'.faces = m.faces) := by
  refine ⟨?_, ?_, ?_, ?_⟩
  · intro rs s
    unfold S.rint
    have := Nat.mod_lt (rs.n s.rk) (show 0 < 4 + 1 - 2 by omega)
    omega
  · intro rs gl s cr out h
    unfold gridCellStep at h
    obtain ⟨a, _, hb⟩ := bindOk h
    cases a with
    | mk m1 ts =>
      cases ts with
      | mk top sides =>
        obtain ⟨m3, _, hc⟩ := bindOk hb
        simp only [pure, Except.pure, Except.ok.injEq] at hc
        rw [← hc]
  · exact fun top mi sides m sr h => tagSides_mat top mi sides m sr h
  · intro m r a b c m' h
    unfold scale_face at h
    split at h
    · exact absurd h (by simp)
    · split at h
      · exact absurd h (by simp)
      · unfold bmScaleSpace at h
        split at h
        all_goals
          split at h
          · exact absurd h (by simp)
          · simp only [Except.ok.injEq] at h
            rw [← h]
            rfl

set_option maxRecDepth 100000 in
set_option maxHeartbeats 4000000 in
/-- C7 witness: the four conjuncts at concrete inputs — a concrete cut draw,
a concrete cell step (choosing `HULL_LIGHTS`), concrete tagging, and a
concrete non-unit `scale_face` leaving the face table unchanged. -/
theorem c7_witness :
    (2 ≤ (S.rint oneStream ⟨squareM, 0⟩ 2 4).1
      ∧ (S.rint oneStream ⟨squareM, 0⟩ 2 4).1 ≤ 4)
    ∧ ((gridCellStep oneStream 0.15 ⟨squareM, 0⟩ 0).toOption.getD
        default).2.chosen = MATERIAL.HULL_LIGHTS
    ∧ faceMat (tagSides 0 5 [0] squareM) 0 =
        (if nearVerticalZ squareM 0 = true ∧ 0 ∈ [0] then 5
         else faceMat squareM 0)
    ∧ ((scale_face squareM 0 2 2 2).toOption.getD default).faces =
        squareM.faces :=
  ⟨c7_grid_behaviour.1 oneStream ⟨squareM, 0⟩,
   by
    have h := c7_grid_behaviour.2.1 oneStream 0.15 ⟨squareM, 0⟩ 0
      ((gridCellStep oneStream 0.15 ⟨squareM, 0⟩ 0).toOption.getD default)
      (by with_unfolding_all decide)
    rw [h]
    with_unfolding_all decide,
   c7_grid_behaviour.2.2.1 0 5 [0] squareM 0 (by with_unfolding_all decide),
   c7_grid_behaviour.2.2.2 squareM 0 2 2 2
    ((scale_face squareM 0 2 2 2).toOption.getD default)
    (by with_unfolding_all decide)⟩

/-! ## C2: material-index validity -/

/-- The material invariant: every face record (live or dead) holds a slot in
`[0, N_MATERIALS)`. -/
def matsOK (m : Mesh) : Prop := ∀ f ∈ m.faces, f.mat < N_MATERIALS

theorem matsOK_of_faces_eq {m' m : Mesh} (hf : m'.faces = m.faces)
    (h : matsOK m) : matsOK m' := by
  unfold matsOK
  rw [hf]
  exact h

theorem matsOK_mapVertsAt {m : Mesh} (h : matsOK m) (idxs : List ℕ)
    (g : V3 → V3) : matsOK (m.mapVertsAt idxs g) :=
  matsOK_of_faces_eq rfl h

theorem matsOK_modifyFace {m : Mesh} {x : ℕ} {g : Face → Face}
    (h : matsOK m)
    (hg : ∀ f, (g f).mat = f.mat ∨ (g f).mat < N_MATERIALS) :
    matsOK (m.modifyFace x g) := by
  intro f hf
  rcases mem_listModify hf with hf' | ⟨w, hw, rfl⟩
  · exact h f hf'
  · rcases hg w with he | hlt
    · rw [he]
      exact h w hw
    · exact hlt

theorem matsOK_setMat {m : Mesh} (h : matsOK m) {c : ℕ}
    (hc : c < N_MATERIALS) (x : ℕ) : matsOK (m.setMat x c) :=
  matsOK_modifyFace h fun _ => Or.inr hc

theorem matsOK_killFace {m : Mesh} (h : matsOK m) (x : ℕ) :
    matsOK (m.killFace x) :=
  matsOK_modifyFace h fun _ => Or.inl rfl

theorem matsOK_append {m' m : Mesh} {news : List Face}
    (hfa : m'.faces = m.faces ++ news) (h : matsOK m)
    (hn : ∀ f ∈ news, f.mat < N_MATERIALS) : matsOK m' := by
  intro f hf
  rw [hfa] at hf
  rcases List.mem_append.mp hf with hf' | hf'
  · exact h f hf'
  · exact hn f hf'

theorem matsOK_getFace {m : Mesh} {r : ℕ} {f : Face} (h : matsOK m)
    (hf : m.getFace r = some f) : f.mat < N_MATERIALS := by
  unfold Mesh.getFace at hf
  cases hq : m.faces.get? r with
  | none => rw [hq] at hf; simp at hf
  | some f' =>
    rw [hq] at hf
    by_cases ha : f'.alive
    · simp only [ha, if_true] at hf
      injection hf with hf2
      exact hf2 ▸ h f' (List.get?_mem hq)
    · simp [ha] at hf

theorem matsOK_foldl_setMat {c : ℕ} (hc : c < N_MATERIALS) :
    ∀ (refs : List ℕ) (m : Mesh), matsOK m →
      matsOK (refs.foldl (fun mm r => mm.setMat r c) m) := by
  intro refs
  induction refs with
  | nil => exact fun m h => h
  | cons q rest ih =>
    intro m h
    exact ih (m.setMat q c) (matsOK_setMat h hc q)

theorem matsOK_tagSides {top mi : ℕ} (hmi : mi < N_MATERIALS) :
    ∀ (sides : List ℕ) (m : Mesh), matsOK m →
      matsOK (tagSides top mi sides m) := by
  intro sides
  induction sides with
  | nil => exact fun m h => h
  | cons c cs ih =>
    intro m h
    have hfold : tagSides top mi (c :: cs) m =
        tagSides top mi cs
          (if nearVerticalZ m top then m.setMat c mi else m) := rfl
    rw [hfold]
    apply ih
    by_cases hnv : nearVerticalZ m top = true
    · rw [if_pos hnv]
      exact matsOK_setMat h hmi c
    · rw [if_neg hnv]
      exact h

/-! Preservation through the kernel operations. -/

theorem matsOK_bmTranslate {m : Mesh} (h : matsOK m) (vec : V3)
    (idxs : List ℕ) : matsOK (bmTranslate m vec idxs) :=
  matsOK_mapVertsAt h idxs _

theorem matsOK_bmScaleVec {m : Mesh} (h : matsOK m) (vec : V3)
    (idxs : List ℕ) : matsOK (bmScaleVec m vec idxs) :=
  matsOK_mapVertsAt h idxs _

theorem matsOK_bmRotate {m : Mesh} (h : matsOK m) (rm : M3)
    (idxs : List ℕ) : matsOK (bmRotate m rm idxs) :=
  matsOK_mapVertsAt h idxs _

theorem matsOK_bmScaleSpace {m : Mesh} (h : matsOK m) {space : Aff}
    {sx sy sz : ℚ} {idxs : List ℕ} {m' : Mesh}
    (hok : bmScaleSpace m space sx sy sz idxs = Except.ok m') :
    matsOK m' := by
  unfold bmScaleSpace at hok
  split at hok
  · exact absurd hok (by simp)
  · simp only [Except.ok.injEq] at hok
    rw [← hok]
    exact matsOK_mapVertsAt h idxs _

theorem matsOK_extrude_discrete {m : Mesh} (h : matsOK m) {r : ℕ}
    {m' : Mesh} {nf : ℕ} {sf : List ℕ}
    (hok : extrude_discrete m r = Except.ok (m', nf, sf)) : matsOK m' := by
  unfold extrude_discrete at hok
  split at hok
  · exact absurd hok (by simp)
  · rename_i f hf
    have hb : f.mat < N_MATERIALS := matsOK_getFace h hf
    simp only [Except.ok.injEq, Prod.mk.injEq] at hok
    obtain ⟨hm, _, _⟩ := hok
    subst hm
    intro g hg
    simp only [List.mem_append, List.mem_singleton, List.mem_map] at hg
    rcases hg with (hg | rfl) | ⟨j, _, rfl⟩
    · exact matsOK_killFace h r g hg
    · exact hb
    · exact hb

theorem matsOK_extrude_face {m : Mesh} (h : matsOK m) {r : ℕ} {d : ℚ}
    {m' : Mesh} {nf : ℕ} {sf : List ℕ}
    (hok : extrude_face m r d = Except.ok (m', nf, sf)) : matsOK m' := by
  unfold extrude_face at hok
  cases he : extrude_discrete m r with
  | error e => rw [he] at hok; simp at hok
  | ok a =>
    rw [he] at hok
    obtain ⟨m1, nf1, sf1⟩ := a
    simp only [Except.ok.injEq, Prod.mk.injEq] at hok
    obtain ⟨hm, _, _⟩ := hok
    rw [← hm]
    exact matsOK_bmTranslate (matsOK_extrude_discrete h he) _ _

theorem matsOK_scale_face {m : Mesh} (h : matsOK m) {r : ℕ} {a b c : ℚ}
    {m' : Mesh} (hok : scale_face m r a b c = Except.ok m') : matsOK m' := by
  unfold scale_face at hok
  split at hok
  · exact absurd hok (by simp)
  · split at hok
    · exact absurd hok (by simp)
    · exact matsOK_bmScaleSpace h hok

theorem matsOK_subdivide_grid {m : Mesh} (h : matsOK m) {r cuts : ℕ}
    {fr : ℚ} {m' : Mesh} {cells : List ℕ}
    (hok : subdivide_grid m r cuts fr = Except.ok (m', cells)) :
    matsOK m' := by
  unfold subdivide_grid at hok
  split at hok
  · exact absurd hok (by simp)
  · rename_i f hf
    have hb : f.mat < N_MATERIALS := matsOK_getFace h hf
    split at hok
    · simp only [Except.ok.injEq, Prod.mk.injEq] at hok
      rw [← hok.1]
      exact h
    · simp only [Except.ok.injEq, Prod.mk.injEq] at hok
      obtain ⟨hm, _⟩ := hok
      subst hm
      intro g hg
      simp only [List.mem_append, List.mem_flatMap, List.mem_map] at hg
      rcases hg with hg | ⟨i, _, j, _, rfl⟩
      · exact matsOK_killFace h r g hg
      · exact hb

theorem matsOK_create_cone {m : Mesh} (h : matsOK m) (segments : ℕ)
    (r1 r2 depth : ℚ) (t : Aff) (cap : Bool) :
    matsOK (create_cone m segments r1 r2 depth t cap).1 := by
  refine matsOK_append (m := m) rfl h ?_
  intro g hg
  simp only [List.mem_append, List.mem_map] at hg
  rcases hg with ⟨j, _, rfl⟩ | hg
  · exact Nat.succ_pos _
  · by_cases hc : cap = true
    · rw [hc] at hg
      simp at hg
      rcases hg with rfl | rfl <;> exact Nat.succ_pos _
    · simp [hc] at hg

theorem matsOK_create_icosphere {m : Mesh} (h : matsOK m) (radius : ℚ)
    (t : Aff) : matsOK (create_icosphere m radius t).1 := by
  refine matsOK_append (m := m) rfl h ?_
  intro g hg
  simp only [List.mem_map] at hg
  obtain ⟨j, _, rfl⟩ := hg
  exact Nat.succ_pos _

theorem matsOK_symmetrize {m : Mesh} (h : matsOK m) (mirror : V3 → V3) :
    matsOK (symmetrize m mirror) := by
  refine matsOK_append (m := m) rfl h ?_
  intro g hg
  simp only [List.mem_map] at hg
  obtain ⟨f, hf, rfl⟩ := hg
  exact h f (List.mem_of_mem_filter hf)

/-! Preservation through the detail generators. -/

theorem matsOK_exhaustCellStep {el so si : ℚ} {m m' : Mesh} {cr : ℕ}
    (h : matsOK m) (hok : exhaustCellStep el so si m cr = Except.ok m') :
    matsOK m' := by
  unfold exhaustCellStep at hok
  split at hok
  · obtain ⟨a, ha, hok⟩ := bindOk hok
    obtain ⟨m1, f1, sf1⟩ := a
    obtain ⟨m2, hb, hok⟩ := bindOk hok
    obtain ⟨a2, hc, hok⟩ := bindOk hok
    obtain ⟨m3, f2, sides⟩ := a2
    have h1 : matsOK m1 :=
      matsOK_extrude_face (matsOK_setMat h (by decide) cr) ha
    have h2 : matsOK m2 := matsOK_scale_face h1 hb
    have h3 : matsOK m3 := matsOK_extrude_face h2 hc
    exact matsOK_scale_face (matsOK_foldl_setMat (by decide) sides m3 h3) hok
  · simp only [Except.ok.injEq] at hok
    rw [← hok]
    exact h

theorem matsOK_exhaustCells {el so si : ℚ} :
    ∀ (cells : List ℕ) (m m' : Mesh), matsOK m →
      exhaustCells el so si cells m = Except.ok m' → matsOK m' := by
  intro cells
  induction cells with
  | nil =>
    intro m m' h hok
    simp only [exhaustCells, Except.ok.injEq] at hok
    rw [← hok]
    exact h
  | cons c cs ih =>
    intro m m' h hok
    unfold exhaustCells at hok
    obtain ⟨m1, ha, hok⟩ := bindOk hok
    exact ih m1 m' (matsOK_exhaustCellStep h ha) hok

theorem matsOK_add_exhaust {rs : RStream} {s s' : S} {r : ℕ}
    (h : matsOK s.bm) (hok : add_exhaust_to_face rs s r = Except.ok s') :
    matsOK s'.bm := by
  unfold add_exhaust_to_face at hok
  split at hok
  · simp only [Except.ok.injEq] at hok
    rw [← hok]
    exact h
  · obtain ⟨a, ha, hok⟩ := bindOk hok
    obtain ⟨m1, cells⟩ := a
    obtain ⟨mfin, hb, hok⟩ := bindOk hok
    simp only [pure, Except.pure, Except.ok.injEq] at hok
    rw [← hok]
    exact matsOK_exhaustCells cells _ _ (matsOK_subdivide_grid h ha) hb

theorem matsOK_if_mat (u : ℚ) :
    (if u > 0.5 then MATERIAL.HULL_LIGHTS else MATERIAL.HULL) < N_MATERIALS := by
  split <;> decide

theorem matsOK_gridCellStep {rs : RStream} {gl : ℚ} {s : S} {cr : ℕ}
    {out : S × GridCellLog} (h : matsOK s.bm)
    (hok : gridCellStep rs gl s cr = Except.ok out) : matsOK out.1.bm := by
  unfold gridCellStep at hok
  obtain ⟨a, ha, hok⟩ := bindOk hok
  obtain ⟨m1, top, sides⟩ := a
  obtain ⟨m3, hb, hok⟩ := bindOk hok
  simp only [pure, Except.pure, Except.ok.injEq] at hok
  rw [← hok]
  exact matsOK_scale_face
    (matsOK_tagSides (matsOK_if_mat _) sides m1 (matsOK_extrude_face h ha)) hb

theorem matsOK_gridCells {rs : RStream} {gl : ℚ} :
    ∀ (cells : List ℕ) (s : S) (acc : List GridCellLog)
      (out : S × List GridCellLog), matsOK s.bm →
      gridCells rs gl cells s acc = Except.ok out → matsOK out.1.bm := by
  intro cells
  induction cells with
  | nil =>
    intro s acc out h hok
    simp only [gridCells, Except.ok.injEq] at hok
    rw [← hok]
    exact h
  | cons c cs ih =>
    intro s acc out h hok
    unfold gridCells at hok
    obtain ⟨a, ha, hok⟩ := bindOk hok
    exact ih a.1 _ out (matsOK_gridCellStep h ha) hok

theorem matsOK_add_grid {rs : RStream} {s : S} {r : ℕ}
    {out : S × List GridCellLog} (h : matsOK s.bm)
    (hok : add_grid_to_face rs s r = Except.ok out) : matsOK out.1.bm := by
  unfold add_grid_to_face at hok
  split at hok
  · simp only [Except.ok.injEq] at hok
    rw [← hok]
    exact h
  · obtain ⟨a, ha, hok⟩ := bindOk hok
    obtain ⟨m1, cells⟩ := a
    exact matsOK_gridCells cells _ _ out (matsOK_subdivide_grid h ha) hok

theorem matsOK_cylCell {ns : ℕ} {size depth : ℚ} {m m' : Mesh} {r : ℕ}
    {pos : V3} (h : matsOK m)
    (hok : cylCell ns size depth m r pos = Except.ok m') : matsOK m' := by
  unfold cylCell at hok
  obtain ⟨fm, _, hok⟩ := bindOk hok
  simp only [pure, Except.pure, Except.ok.injEq] at hok
  rw [← hok]
  exact matsOK_create_cone h ns size size depth _ true

theorem matsOK_cylCells {ns : ℕ} {size depth : ℚ} {r : ℕ} :
    ∀ (ps : List V3) (m m' : Mesh), matsOK m →
      cylCells ns size depth r ps m = Except.ok m' → matsOK m' := by
  intro ps
  induction ps with
  | nil =>
    intro m m' h hok
    simp only [cylCells, Except.ok.injEq] at hok
    rw [← hok]
    exact h
  | cons p ps' ih =>
    intro m m' h hok
    unfold cylCells at hok
    obtain ⟨m1, ha, hok⟩ := bindOk hok
    exact ih m1 m' (matsOK_cylCell h ha) hok

theorem matsOK_add_cylinders {rs : RStream} {s s' : S} {r : ℕ}
    (h : matsOK s.bm) (hok : add_cylinders_to_face rs s r = Except.ok s') :
    matsOK s'.bm := by
  unfold add_cylinders_to_face at hok
  split at hok
  · simp only [Except.ok.injEq] at hok
    rw [← hok]
    exact h
  · obtain ⟨mfin, ha, hok⟩ := bindOk hok
    simp only [pure, Except.pure, Except.ok.injEq] at hok
    rw [← hok]
    exact matsOK_cylCells _ _ _ h ha

theorem matsOK_weaponCell {rs : RStream} {r : ℕ} {ws wd : ℚ} {s s' : S}
    {pos : V3} (h : matsOK s.bm)
    (hok : weaponCell rs r ws wd s pos = Except.ok s') : matsOK s'.bm := by
  unfold weaponCell at hok
  obtain ⟨fm, _, hok⟩ := bindOk hok
  simp only [pure, Except.pure, Except.ok.injEq] at hok
  rw [← hok]
  exact matsOK_create_cone (matsOK_create_cone (matsOK_create_cone
    (matsOK_create_cone (matsOK_create_cone (matsOK_create_cone h
      16 _ _ _ _ true) 16 _ _ _ _ true) 16 _ _ _ _ true) 8 _ _ _ _ true)
      8 _ _ _ _ true) 8 _ _ _ _ true

theorem matsOK_weaponCells {rs : RStream} {r : ℕ} {ws wd : ℚ} :
    ∀ (ps : List V3) (s s' : S), matsOK s.bm →
      weaponCells rs r ws wd ps s = Except.ok s' → matsOK s'.bm := by
  intro ps
  induction ps with
  | nil =>
    intro s s' h hok
    simp only [weaponCells, Except.ok.injEq] at hok
    rw [← hok]
    exact h
  | cons p ps' ih =>
    intro s s' h hok
    unfold weaponCells at hok
    obtain ⟨s1, ha, hok⟩ := bindOk hok
    exact ih s1 s' (matsOK_weaponCell h ha) hok

theorem matsOK_add_weapons {rs : RStream} {s s' : S} {r : ℕ}
    (h : matsOK s.bm) (hok : add_weapons_to_face rs s r = Except.ok s') :
    matsOK s'.bm := by
  unfold add_weapons_to_face at hok
  split at hok
  · simp only [Except.ok.injEq] at hok
    rw [← hok]
    exact h
  · dsimp only [S.rint] at hok
    refine matsOK_weaponCells _ _ _ ?_ hok
    exact h

theorem matsOK_add_sphere {rs : RStream} {s s' : S} {r : ℕ}
    (h : matsOK s.bm) (hok : add_sphere_to_face rs s r = Except.ok s') :
    matsOK s'.bm := by
  unfold add_sphere_to_face at hok
  split at hok
  · simp only [Except.ok.injEq] at hok
    rw [← hok]
    exact h
  · obtain ⟨fm, _, hok⟩ := bindOk hok
    simp only [pure, Except.pure, Except.ok.injEq] at hok
    rw [← hok]
    exact matsOK_foldl_setMat (by decide) _ _ (matsOK_create_icosphere h _ _)

theorem matsOK_antennaPoint {rs : RStream} {r : ℕ} {s s' : S} {pos : V3}
    (h : matsOK s.bm) (hok : antennaPoint rs r s pos = Except.ok s') :
    matsOK s'.bm := by
  unfold antennaPoint at hok
  dsimp only [S.rand, S.runi, S.rint] at hok
  split at hok
  · obtain ⟨fm1, _, hok⟩ := bindOk hok
    obtain ⟨fm2, _, hok⟩ := bindOk hok
    simp only [pure, Except.pure, Except.ok.injEq] at hok
    rw [← hok]
    exact matsOK_foldl_setMat (by decide) _ _
      (matsOK_create_cone
        (matsOK_foldl_setMat (by decide) _ _ (matsOK_create_cone h _ _ _ _ _ false))
        _ _ _ _ _ true)
  · simp only [Except.ok.injEq] at hok
    rw [← hok]
    exact h

theorem matsOK_antennaPoints {rs : RStream} {r : ℕ} :
    ∀ (ps : List V3) (s s' : S), matsOK s.bm →
      antennaPoints rs r ps s = Except.ok s' → matsOK s'.bm := by
  intro ps
  induction ps with
  | nil =>
    intro s s' h hok
    simp only [antennaPoints, Except.ok.injEq] at hok
    rw [← hok]
    exact h
  | cons p ps' ih =>
    intro s s' h hok
    unfold antennaPoints at hok
    obtain ⟨s1, ha, hok⟩ := bindOk hok
    exact ih s1 s' (matsOK_antennaPoint h ha) hok

theorem matsOK_add_antenna {rs : RStream} {s s' : S} {r : ℕ}
    (h : matsOK s.bm)
    (hok : add_surface_antenna_to_face rs s r = Except.ok s') :
    matsOK s'.bm := by
  unfold add_surface_antenna_to_face at hok
  split at hok
  · simp only [Except.ok.injEq] at hok
    rw [← hok]
    exact h
  · dsimp only [S.rint] at hok
    refine matsOK_antennaPoints _ _ _ ?_ hok
    exact h

theorem matsOK_add_disc {s s' : S} {r : ℕ} (h : matsOK s.bm)
    (hok : add_disc_to_face s r = Except.ok s') : matsOK s'.bm := by
  unfold add_disc_to_face at hok
  split at hok
  · simp only [Except.ok.injEq] at hok
    rw [← hok]
    exact h
  · obtain ⟨fm1, _, hok⟩ := bindOk hok
    obtain ⟨fm2, _, hok⟩ := bindOk hok
    simp only [pure, Except.pure, Except.ok.injEq] at hok
    rw [← hok]
    exact matsOK_foldl_setMat (by decide) _ _
      (matsOK_create_cone (matsOK_create_cone h 32 _ _ _ _ true) 32 _ _ _ _ false)

theorem matsOK_classifyStep {rs : RStream} {sb : S × Buckets} {q : ℕ}
    (h : matsOK sb.1.bm) : matsOK (classifyStep rs sb q).1.bm := by
  unfold classifyStep
  dsimp only
  split
  · exact h
  · split
    all_goals first
      | exact h
      | exact matsOK_setMat h (by decide) q

theorem matsOK_classifyPass {rs : RStream} :
    ∀ (refs : List ℕ) (sb : S × Buckets), matsOK sb.1.bm →
      matsOK (classifyPass rs refs sb).1.bm := by
  intro refs
  induction refs with
  | nil => exact fun sb h => h
  | cons q rest ih =>
    intro sb h
    exact ih (classifyStep rs sb q) (matsOK_classifyStep h)

theorem matsOK_runExhausts {rs : RStream} :
    ∀ (refs : List ℕ) (s s' : S), matsOK s.bm →
      runExhausts rs refs s = Except.ok s' → matsOK s'.bm := by
  intro refs
  induction refs with
  | nil =>
    intro s s' h hok
    simp only [runExhausts, Except.ok.injEq] at hok
    rw [← hok]
    exact h
  | cons q rest ih =>
    intro s s' h hok
    unfold runExhausts at hok
    obtain ⟨s1, ha, hok⟩ := bindOk hok
    exact ih s1 s' (matsOK_add_exhaust h ha) hok

theorem matsOK_runGrids {rs : RStream} :
    ∀ (refs : List ℕ) (s s' : S), matsOK s.bm →
      runGrids rs refs s = Except.ok s' → matsOK s'.bm := by
  intro refs
  induction refs with
  | nil =>
    intro s s' h hok
    simp only [runGrids, Except.ok.injEq] at hok
    rw [← hok]
    exact h
  | cons q rest ih =>
    intro s s' h hok
    unfold runGrids at hok
    obtain ⟨sl, ha, hok⟩ := bindOk hok
    exact ih sl.1 s' (matsOK_add_grid h ha) hok

theorem matsOK_runAntennas {rs : RStream} :
    ∀ (refs : List ℕ) (s s' : S), matsOK s.bm →
      runAntennas rs refs s = Except.ok s' → matsOK s'.bm := by
  intro refs
  induction refs with
  | nil =>
    intro s s' h hok
    simp only [runAntennas, Except.ok.injEq] at hok
    rw [← hok]
    exact h
  | cons q rest ih =>
    intro s s' h hok
    unfold runAntennas at hok
    obtain ⟨s1, ha, hok⟩ := bindOk hok
    exact ih s1 s' (matsOK_add_antenna h ha) hok

theorem matsOK_runWeapons {rs : RStream} :
    ∀ (refs : List ℕ) (s s' : S), matsOK s.bm →
      runWeapons rs refs s = Except.ok s' → matsOK s'.bm := by
  intro refs
  induction refs with
  | nil =>
    intro s s' h hok
    simp only [runWeapons, Except.ok.injEq] at hok
    rw [← hok]
    exact h
  | cons q rest ih =>
    intro s s' h hok
    unfold runWeapons at hok
    obtain ⟨s1, ha, hok⟩ := bindOk hok
    exact ih s1 s' (matsOK_add_weapons h ha) hok

theorem matsOK_runSpheres {rs : RStream} :
    ∀ (refs : List ℕ) (s s' : S), matsOK s.bm →
      runSpheres rs refs s = Except.ok s' → matsOK s'.bm := by
  intro refs
  induction refs with
  | nil =>
    intro s s' h hok
    simp only [runSpheres, Except.ok.injEq] at hok
    rw [← hok]
    exact h
  | cons q rest ih =>
    intro s s' h hok
    unfold runSpheres at hok
    obtain ⟨s1, ha, hok⟩ := bindOk hok
    exact ih s1 s' (matsOK_add_sphere h ha) hok

theorem matsOK_runDiscs :
    ∀ (refs : List ℕ) (s s' : S), matsOK s.bm →
      runDiscs refs s = Except.ok s' → matsOK s'.bm := by
  intro refs
  induction refs with
  | nil =>
    intro s s' h hok
    simp only [runDiscs, Except.ok.injEq] at hok
    rw [← hok]
    exact h
  | cons q rest ih =>
    intro s s' h hok
    unfold runDiscs at hok
    obtain ⟨s1, ha, hok⟩ := bindOk hok
    exact ih s1 s' (matsOK_add_disc h ha) hok

theorem matsOK_runCylinders {rs : RStream} :
    ∀ (refs : List ℕ) (s s' : S), matsOK s.bm →
      runCylinders rs refs s = Except.ok s' → matsOK s'.bm := by
  intro refs
  induction refs with
  | nil =>
    intro s s' h hok
    simp only [runCylinders, Except.ok.injEq] at hok
    rw [← hok]
    exact h
  | cons q rest ih =>
    intro s s' h hok
    unfold runCylinders at hok
    obtain ⟨s1, ha, hok⟩ := bindOk hok
    exact ih s1 s' (matsOK_add_cylinders h ha) hok

theorem matsOK_detailPass {rs : RStream} {parms : Parms} {s s' : S}
    (h : matsOK s.bm) (hok : detailPass rs parms s = Except.ok s') :
    matsOK s'.bm := by
  unfold detailPass at hok
  split at hok
  · obtain ⟨s1, h1, hok⟩ := bindOk hok
    obtain ⟨s2, h2, hok⟩ := bindOk hok
    obtain ⟨s3, h3, hok⟩ := bindOk hok
    obtain ⟨s4, h4, hok⟩ := bindOk hok
    obtain ⟨s5, h5, hok⟩ := bindOk hok
    obtain ⟨s6, h6, hok⟩ := bindOk hok
    have k1 := matsOK_runExhausts _ _ _ (matsOK_classifyPass _ _ h) h1
    have k2 := matsOK_runGrids _ _ _ k1 h2
    have k3 := matsOK_runAntennas _ _ _ k2 h3
    have k4 := matsOK_runWeapons _ _ _ k3 h4
    have k5 := matsOK_runSpheres _ _ _ k4 h5
    have k6 := matsOK_runDiscs _ _ _ k5 h6
    exact matsOK_runCylinders _ _ _ k6 hok
  · simp only [Except.ok.injEq] at hok
    rw [← hok]
    exact h

theorem matsOK_ribUnit {per rib_scale : ℚ} {m : Mesh} {r : ℕ}
    {out : Mesh × ℕ} (h : matsOK m)
    (hok : ribUnit per rib_scale m r = Except.ok out) : matsOK out.1 := by
  unfold ribUnit at hok
  obtain ⟨a1, h1, hok⟩ := bindOk hok
  obtain ⟨m1, r1, l1⟩ := a1
  obtain ⟨a2, h2, hok⟩ := bindOk hok
  obtain ⟨m2, r2, l2⟩ := a2
  obtain ⟨m3, h3, hok⟩ := bindOk hok
  obtain ⟨a4, h4, hok⟩ := bindOk hok
  obtain ⟨m4, r4, l4⟩ := a4
  obtain ⟨a5, h5, hok⟩ := bindOk hok
  obtain ⟨m5, r5, l5⟩ := a5
  obtain ⟨m6, h6, hok⟩ := bindOk hok
  obtain ⟨a7, h7, hok⟩ := bindOk hok
  obtain ⟨m7, r7, l7⟩ := a7
  simp only [pure, Except.pure, Except.ok.injEq] at hok
  rw [← hok]
  exact matsOK_extrude_face (matsOK_scale_face (matsOK_extrude_face
    (matsOK_extrude_face (matsOK_scale_face (matsOK_extrude_face
      (matsOK_extrude_face h h1) h2) h3) h4) h5) h6) h7

theorem matsOK_ribLoop {per rib_scale : ℚ} :
    ∀ (n : ℕ) (m : Mesh) (r : ℕ) (out : Mesh × ℕ), matsOK m →
      ribLoop per rib_scale n m r = Except.ok out → matsOK out.1 := by
  intro n
  induction n with
  | zero =>
    intro m r out h hok
    simp only [ribLoop, Except.ok.injEq] at hok
    rw [← hok]
    exact h
  | succ k ih =>
    intro m r out h hok
    unfold ribLoop at hok
    obtain ⟨a, ha, hok⟩ := bindOk hok
    obtain ⟨m1, r1⟩ := a
    exact ih m1 r1 out (matsOK_ribUnit h ha) hok

theorem matsOK_ribbed_extrude {m : Mesh} {r : ℕ} {tf : ℚ} {nr : ℕ}
    {rsc : ℚ} {out : Mesh × ℕ} (h : matsOK m)
    (hok : ribbed_extrude_face m r tf nr rsc = Except.ok out) :
    matsOK out.1 :=
  matsOK_ribLoop nr m r out h hok

theorem matsOK_hullMaybeExtra {rs : RStream} {len : ℚ} {s : S} {face : ℕ}
    {out : S × ℕ} (h : matsOK s.bm)
    (hok : hullMaybeExtra rs len s face = Except.ok out) :
    matsOK out.1.bm := by
  unfold hullMaybeExtra at hok
  dsimp only at hok
  split at hok
  · obtain ⟨a, ha, hok⟩ := bindOk hok
    obtain ⟨m2, f2, l2⟩ := a
    simp only [pure, Except.pure, Except.ok.injEq] at hok
    rw [← hok]
    exact matsOK_extrude_face h ha
  · simp only [pure, Except.pure, Except.ok.injEq] at hok
    rw [← hok]
    exact h

theorem matsOK_hullMaybeScale {rs : RStream} {is_last : Bool} {s : S}
    {face : ℕ} {s' : S} (h : matsOK s.bm)
    (hok : hullMaybeScale rs is_last s face = Except.ok s') :
    matsOK s'.bm := by
  unfold hullMaybeScale at hok
  dsimp only at hok
  split at hok
  · split at hok
    all_goals
      obtain ⟨m, ha, hok⟩ := bindOk hok
      simp only [pure, Except.pure, Except.ok.injEq] at hok
      rw [← hok]
      exact matsOK_scale_face h ha
  · simp only [pure, Except.pure, Except.ok.injEq] at hok
    rw [← hok]
    exact h

theorem matsOK_hullMaybeSideways {rs : RStream} {sv : V3} {len : ℚ}
    {s : S} {face : ℕ} (h : matsOK s.bm) :
    matsOK (hullMaybeSideways rs sv len s face).bm := by
  unfold hullMaybeSideways
  dsimp only
  split
  · exact matsOK_bmTranslate h _ _
  · exact h

theorem matsOK_hullMaybeRotate {rs : RStream} {s : S} {face : ℕ}
    (h : matsOK s.bm) : matsOK (hullMaybeRotate rs s face).bm := by
  unfold hullMaybeRotate
  dsimp only
  split
  · exact matsOK_bmRotate h _ _
  · exact h

theorem matsOK_hullSegmentStep {rs : RStream} {sv : V3} {len : ℚ}
    {is_last : Bool} {s : S} {face : ℕ} {out : S × ℕ} (h : matsOK s.bm)
    (hok : hullSegmentStep rs sv len is_last s face = Except.ok out) :
    matsOK out.1.bm := by
  unfold hullSegmentStep at hok
  dsimp only at hok
  split at hok
  · obtain ⟨a, ha, hok⟩ := bindOk hok
    obtain ⟨m1, f1, l1⟩ := a
    obtain ⟨sf2, hb, hok⟩ := bindOk hok
    obtain ⟨s4, hc, hok⟩ := bindOk hok
    simp only [pure, Except.pure, Except.ok.injEq] at hok
    rw [← hok]
    exact matsOK_hullMaybeRotate (matsOK_hullMaybeSideways
      (matsOK_hullMaybeScale (matsOK_hullMaybeExtra
        (matsOK_extrude_face h ha) hb) hc))
  · dsimp only [S.rint] at hok
    obtain ⟨a, ha, hok⟩ := bindOk hok
    obtain ⟨m, f1⟩ := a
    simp only [pure, Except.pure, Except.ok.injEq] at hok
    rw [← hok]
    refine matsOK_ribbed_extrude ?_ ha
    exact h

theorem matsOK_hullSegLoop {rs : RStream} {sv : V3} {len : ℚ} :
    ∀ (n : ℕ) (s : S) (face : ℕ) (out : S × ℕ), matsOK s.bm →
      hullSegLoop rs sv len n s face = Except.ok out → matsOK out.1.bm := by
  intro n
  induction n with
  | zero =>
    intro s face out h hok
    simp only [hullSegLoop, Except.ok.injEq] at hok
    rw [← hok]
    exact h
  | succ k ih =>
    intro s face out h hok
    unfold hullSegLoop at hok
    obtain ⟨a, ha, hok⟩ := bindOk hok
    obtain ⟨s1, f1⟩ := a
    exact ih s1 f1 out (matsOK_hullSegmentStep h ha) hok

theorem numHullSegmentsDraw_bm (rs : RStream) (p : Parms) (s : S) :
    (numHullSegmentsDraw rs p s).2.bm = s.bm := by
  unfold numHullSegmentsDraw
  split
  · rfl
  · rfl

theorem matsOK_growArm {rs : RStream} {p : Parms} {sv : V3} {s : S}
    {r : ℕ} {out : S × ℕ} (h : matsOK s.bm)
    (hok : growArm rs p sv s r = Except.ok out) : matsOK out.1.bm := by
  unfold growArm at hok
  obtain ⟨a, ha, hok⟩ := bindOk hok
  obtain ⟨s3, f3⟩ := a
  simp only [pure, Except.pure, Except.ok.injEq] at hok
  rw [← hok]
  dsimp only
  have h2 : matsOK (numHullSegmentsDraw rs p (S.runi rs s 0.3 1).2).2.bm := by
    rw [numHullSegmentsDraw_bm]
    exact h
  exact matsOK_hullSegLoop _ _ _ (s3, f3) h2 ha

theorem matsOK_growArms {rs : RStream} {p : Parms} {sv : V3} :
    ∀ (refs : List ℕ) (s s' : S), matsOK s.bm →
      growArms rs p sv refs s = Except.ok s' → matsOK s'.bm := by
  intro refs
  induction refs with
  | nil =>
    intro s s' h hok
    simp only [growArms, Except.ok.injEq] at hok
    rw [← hok]
    exact h
  | cons q rest ih =>
    intro s s' h hok
    unfold growArms at hok
    split at hok
    · obtain ⟨a, ha, hok⟩ := bindOk hok
      exact ih a.1 s' (matsOK_growArm h ha) hok
    · exact ih s s' h hok

theorem matsOK_asymChain {rs : RStream} {len : ℚ} :
    ∀ (k : ℕ) (s : S) (face : ℕ) (s' : S), matsOK s.bm →
      asymChain rs len k s face = Except.ok s' → matsOK s'.bm := by
  intro k
  induction k with
  | zero =>
    intro s face s' h hok
    simp only [asymChain, Except.ok.injEq] at hok
    rw [← hok]
    exact h
  | succ n ih =>
    intro s face s' h hok
    unfold asymChain at hok
    obtain ⟨a, ha, hok⟩ := bindOk hok
    obtain ⟨m1, f1, l1⟩ := a
    dsimp only at hok
    split at hok
    · obtain ⟨m2, hb, hok⟩ := bindOk hok
      refine ih _ f1 s' ?_ hok
      refine matsOK_scale_face ?_ hb
      exact matsOK_extrude_face h ha
    · refine ih _ f1 s' ?_ hok
      exact matsOK_extrude_face h ha

theorem matsOK_asymFaceStep {rs : RStream} {p : Parms} {s : S} {r : ℕ}
    {out : S × ℕ} (h : matsOK s.bm)
    (hok : asymFaceStep rs p s r = Except.ok out) : matsOK out.1.bm := by
  unfold asymFaceStep at hok
  split at hok
  · simp only [Except.ok.injEq] at hok
    rw [← hok]
    exact h
  · dsimp only [S.rrange] at hok
    split at hok
    · obtain ⟨s4, ha, hok⟩ := bindOk hok
      simp only [pure, Except.pure, Except.ok.injEq] at hok
      rw [← hok]
      refine matsOK_asymChain _ _ _ _ ?_ ha
      exact h
    · simp only [Except.ok.injEq] at hok
      rw [← hok]
      exact h

theorem matsOK_asymFaces {rs : RStream} {p : Parms} :
    ∀ (refs : List ℕ) (s : S) (tot : ℕ) (out : S × ℕ), matsOK s.bm →
      asymFaces rs p refs s tot = Except.ok out → matsOK out.1.bm := by
  intro refs
  induction refs with
  | nil =>
    intro s tot out h hok
    simp only [asymFaces, Except.ok.injEq] at hok
    rw [← hok]
    exact h
  | cons q rest ih =>
    intro s tot out h hok
    unfold asymFaces at hok
    obtain ⟨a, ha, hok⟩ := bindOk hok
    obtain ⟨s1, c1⟩ := a
    exact ih s1 _ out (matsOK_asymFaceStep h ha) hok

theorem matsOK_asymPass {rs : RStream} {p : Parms} {s : S} {out : S × ℕ}
    (h : matsOK s.bm) (hok : asymPass rs p s = Except.ok out) :
    matsOK out.1.bm := by
  unfold asymPass at hok
  split at hok
  · exact matsOK_asymFaces _ _ _ out h hok
  · simp only [Except.ok.injEq] at hok
    rw [← hok]
    exact h

theorem matsOK_symHalf {rs : RStream} {mir : V3 → V3} (c : Bool) (t : S)
    (h : matsOK t.bm) :
    matsOK (if c then
      (let us := S.rand rs t
       if us.1 > 0.5 then { us.2 with bm := symmetrize us.2.bm mir }
       else us.2)
    else t).bm := by
  split
  · dsimp only
    split
    · exact matsOK_symmetrize h _
    · exact h
  · exact h

theorem matsOK_symPass {rs : RStream} {p : Parms} {s : S}
    (h : matsOK s.bm) : matsOK (symPass rs p s).bm := by
  unfold symPass
  exact matsOK_symHalf p.allow_vertical_symmetry _
    (matsOK_symHalf p.allow_horizontal_symmetry s h)

theorem matsOK_finalizeMesh {m : Mesh} (h : matsOK m) :
    matsOK (finalizeMesh m) := by
  intro f hf
  exact h f (List.mem_of_mem_filter hf)

theorem matsOK_createCube : matsOK createCube := by
  intro f hf
  simp [createCube] at hf
  rcases hf with rfl | rfl | rfl | rfl | rfl | rfl <;> exact Nat.succ_pos _

theorem matsOK_generateWith {rs : RStream} {p : Parms} {out : GenOut}
    (hok : generateWith rs p = Except.ok out) : matsOK out.mesh := by
  unfold generateWith at hok
  dsimp only [S.runi] at hok
  obtain ⟨s5, h5, hok⟩ := bindOk hok
  obtain ⟨sa, h6, hok⟩ := bindOk hok
  obtain ⟨s7, h7, hok⟩ := bindOk hok
  simp only [pure, Except.pure, Except.ok.injEq] at hok
  have k5 : matsOK s5.bm := by
    refine matsOK_growArms _ _ _ ?_ h5
    exact matsOK_bmScaleVec matsOK_createCube _ _
  have k6 : matsOK sa.1.bm := matsOK_asymPass k5 h6
  have k7 : matsOK s7.bm := matsOK_detailPass k6 h7
  rw [← hok]
  split
  · exact matsOK_finalizeMesh (matsOK_symPass k7)
  · exact matsOK_finalizeMesh (matsOK_symPass k7)

/-- The mutating kernel operations the generator performs, as one
dispatchable type: the claim quantifies over every mutating kernel operation
during growth, detailing and symmetrization. -/
inductive KernelOp where
  | translate (vec : V3) (idxs : List ℕ)
  | scaleVec (vec : V3) (idxs : List ℕ)
  | rotate (rm : M3) (idxs : List ℕ)
  | scaleSpace (space : Aff) (sx sy sz : ℚ) (idxs : List ℕ)
  | extrude (r : ℕ)
  | extrudeFace (r : ℕ) (d : ℚ)
  | scaleFace (r : ℕ) (sx sy sz : ℚ)
  | subdivide (r cuts : ℕ) (fractal : ℚ)
  | cone (segments : ℕ) (r1 r2 depth : ℚ) (t : Aff) (cap : Bool)
  | icosphere (radius : ℚ) (t : Aff)
  | setMaterial (r : ℕ) (slot : Fin N_MATERIALS)
  | symY
  | symZ
deriving Repr, DecidableEq

/-- Apply one kernel operation to a mesh (face handles returned by the
underlying operation are dropped; `setMaterial` covers the generator's
direct `face.material_index` writes, which only ever use `MATERIAL`
slots). -/
def applyKernelOp : KernelOp → Mesh → Except Err Mesh
  | .translate vec idxs, m => .ok (bmTranslate m vec idxs)
  | .scaleVec vec idxs, m => .ok (bmScaleVec m vec idxs)
  | .rotate rm idxs, m => .ok (bmRotate m rm idxs)
  | .scaleSpace space sx sy sz idxs, m => bmScaleSpace m space sx sy sz idxs
  | .extrude r, m => (extrude_discrete m r).map (·.1)
  | .extrudeFace r d, m => (extrude_face m r d).map (·.1)
  | .scaleFace r sx sy sz, m => scale_face m r sx sy sz
  | .subdivide r cuts fractal, m => (subdivide_grid m r cuts fractal).map (·.1)
  | .cone segments r1 r2 depth t cap, m =>
    .ok (create_cone m segments r1 r2 depth t cap).1
  | .icosphere radius t, m => .ok (create_icosphere m radius t).1
  | .setMaterial r slot, m => .ok (m.setMat r slot)
  | .symY, m => .ok (symmetrize m mirrorY)
  | .symZ, m => .ok (symmetrize m mirrorZ)

/-- C2: material-index validity.  Every mutating kernel operation preserves
the invariant that all face records carry a material slot in
`[0, N_MATERIALS)`, and at the end of every completed generation call every
face of the output mesh satisfies it. -/
theorem c2_material_validity :
    (∀ (op : KernelOp) (m m' : Mesh), matsOK m →
      applyKernelOp op m = Except.ok m' → matsOK m')
    ∧ (∀ (p : Parms) (e : RStream) (out : GenOut),
      generate_spaceship p e = Except.ok out → matsOK out.mesh) := by
  constructor
  · intro op m m' h hok
    cases op with
    | translate vec idxs =>
      simp only [applyKernelOp, Except.ok.injEq] at hok
      rw [← hok]
      exact matsOK_bmTranslate h _ _
    | scaleVec vec idxs =>
      simp only [applyKernelOp, Except.ok.injEq] at hok
      rw [← hok]
      exact matsOK_bmScaleVec h _ _
    | rotate rm idxs =>
      simp only [applyKernelOp, Except.ok.injEq] at hok
      rw [← hok]
      exact matsOK_bmRotate h _ _
    | scaleSpace space sx sy sz idxs =>
      exact matsOK_bmScaleSpace h hok
    | extrude r =>
      simp only [applyKernelOp] at hok
      cases he : extrude_discrete m r with
      | error e => rw [he] at hok; simp [Except.map] at hok
      | ok a =>
        rw [he] at hok
        simp only [Except.map, Except.ok.injEq] at hok
        obtain ⟨m1, nf, sf⟩ := a
        rw [← hok]
        exact matsOK_extrude_discrete h he
    | extrudeFace r d =>
      simp only [applyKernelOp] at hok
      cases he : extrude_face m r d with
      | error e => rw [he] at hok; simp [Except.map] at hok
      | ok a =>
        rw [he] at hok
        simp only [Except.map, Except.ok.injEq] at hok
        obtain ⟨m1, nf, sf⟩ := a
        rw [← hok]
        exact matsOK_extrude_face h he
    | scaleFace r sx sy sz =>
      exact matsOK_scale_face h hok
    | subdivide r cuts fractal =>
      simp only [applyKernelOp] at hok
      cases he : subdivide_grid m r cuts fractal with
      | error e => rw [he] at hok; simp [Except.map] at hok
      | ok a =>
        rw [he] at hok
        simp only [Except.map, Except.ok.injEq] at hok
        obtain ⟨m1, cells⟩ := a
        rw [← hok]
        exact matsOK_subdivide_grid h he
    | cone segments r1 r2 depth t cap =>
      simp only [applyKernelOp, Except.ok.injEq] at hok
      rw [← hok]
      exact matsOK_create_cone h _ _ _ _ _ _
    | icosphere radius t =>
      simp only [applyKernelOp, Except.ok.injEq] at hok
      rw [← hok]
      exact matsOK_create_icosphere h _ _
    | setMaterial r slot =>
      simp only [applyKernelOp, Except.ok.injEq] at hok
      rw [← hok]
      exact matsOK_setMat h slot.isLt r
    | symY =>
      simp only [applyKernelOp, Except.ok.injEq] at hok
      rw [← hok]
      exact matsOK_symmetrize h _
    | symZ =>
      simp only [applyKernelOp, Except.ok.injEq] at hok
      rw [← hok]
      exact matsOK_symmetrize h _
  · intro p e out hok
    unfold generate_spaceship at hok
    exact matsOK_generateWith hok

/-- A constant stream (every uniform draw 1/2, every integer draw 0) for a
concrete full generation run. -/
def halfStream : RStream := ⟨fun _ => 1 / 2, fun _ => 0⟩

/-- Concrete parameters for a minimal full generation run: empty seed, zero
hull segments, all optional passes off. -/
def parmsC2 : Parms :=
  { geom_ranseed := "",
    num_hull_segments_min := 0, num_hull_segments_max := 0,
    create_asymmetry_segments := false, create_face_detail := false,
    allow_horizontal_symmetry := false, allow_vertical_symmetry := false,
    add_bevel_modifier := false }

/-- The concrete output of `generate_spaceship parmsC2 halfStream`: the seed
cube scaled by `uniform(0.75, 2.0) = 11/8` on each axis, no bevel. -/
def c2RunOut : GenOut :=
  { mesh :=
    { verts :=
        [⟨-11/16, -11/16, -11/16⟩, ⟨-11/16, -11/16, 11/16⟩,
         ⟨-11/16, 11/16, -11/16⟩, ⟨-11/16, 11/16, 11/16⟩,
         ⟨11/16, -11/16, -11/16⟩, ⟨11/16, -11/16, 11/16⟩,
         ⟨11/16, 11/16, -11/16⟩, ⟨11/16, 11/16, 11/16⟩],
      faces :=
        [⟨[0, 1, 3, 2], 0, true⟩, ⟨[4, 6, 7, 5], 0, true⟩,
         ⟨[0, 4, 5, 1], 0, true⟩, ⟨[2, 3, 7, 6], 0, true⟩,
         ⟨[0, 2, 6, 4], 0, true⟩, ⟨[1, 5, 7, 3], 0, true⟩] },
    bevelWidth := none }

set_option maxRecDepth 100000 in
set_option maxHeartbeats 4000000 in
theorem c2_witness :
    matsOK (bmTranslate createCube ⟨1, 0, 0⟩ [0]) ∧ matsOK c2RunOut.mesh :=
  ⟨c2_material_validity.1 (KernelOp.translate ⟨1, 0, 0⟩ [0]) createCube
      (bmTranslate createCube ⟨1, 0, 0⟩ [0]) matsOK_createCube rfl,
   c2_material_validity.2 parmsC2 halfStream c2RunOut
      (by with_unfolding_all decide)⟩

end SpaceGen
